import Mathlib

/-!
Verification development for the pixel-bot-go detection core.

The Go sources are shallowly embedded: float64 arithmetic is modelled by
exact arithmetic (`ℚ` for the parts that never take a square root, `ℝ`
where `math.Sqrt` appears), Go slices by total functions with explicit
dimensions, and the package-level template cache by an explicit cache
value threaded through the functions that consult it.  Image bounds are
normalised so that `Bounds().Min = (0,0)`; the `fb.Min` offsets in the
Go code only translate reported coordinates.
-/

namespace PixelBot

/-- RGBA pixel as read through Go's `Color.RGBA()`: four non-negative
channel values (16-bit scale for the NCC code paths). -/
structure Pix where
  r : ℕ
  g : ℕ
  b : ℕ
  a : ℕ
deriving DecidableEq

/-- An in-memory image: width, height and a total pixel function over
zero-based `(x, y)` coordinates. -/
structure Img where
  W : ℕ
  H : ℕ
  px : ℕ → ℕ → Pix

/-- Grayscale value of one pixel: `0.2126*r + 0.7152*g + 0.0722*b` from
`ncc.go`, applied when the pixel is not fully transparent; a transparent
pixel contributes `0` (its slot keeps the zero initialisation of the Go
slice, and `buildGrayPrecomp` explicitly stores `0`). -/
def grayOfPix (p : Pix) : ℚ :=
  if p.a ≠ 0 then 0.2126 * p.r + 0.7152 * p.g + 0.0722 * p.b else 0

/-- templatePrecomp of `src/domain/capture/ncc.go`: row-major grayscale
slots (transparent slots `0`, out-of-range slots read as `0`), the sums
accumulated over the non-transparent pixels, the dimensions, and the mean.
The Go struct stores `stdT = sqrt(varT)` (with `0` for non-positive
variance); here the variance is stored exactly and `TemplatePrecomp.stdT`
derives the same real number. -/
structure TemplatePrecomp where
  gray : ℕ → ℚ
  sumT : ℚ
  sumT2 : ℚ
  W : ℕ
  H : ℕ
  meanT : ℚ
  varT : ℚ

/-- Standard deviation field of the Go `templatePrecomp`: `math.Sqrt(varT)`
when the variance is positive, else the zero initialisation. -/
noncomputable def TemplatePrecomp.stdT (pc : TemplatePrecomp) : ℝ :=
  if 0 < pc.varT then Real.sqrt pc.varT else 0

/-- Builds the `templatePrecomp` for a template image, as the cache-miss
branch of `getTemplatePrecomp` does: pixels with `alpha == 0` are skipped
when accumulating `sumT`/`sumT2` (their slots stay `0`, so summing the
slot values is the same accumulation), and `n = w*h` counts every slot. -/
def buildTemplatePrecomp (tmpl : Img) : TemplatePrecomp :=
  let w := tmpl.W
  let h := tmpl.H
  let gray : ℕ → ℚ := fun i =>
    if i < w * h then grayOfPix (tmpl.px (i % w) (i / w)) else 0
  let sumT : ℚ := ∑ i ∈ Finset.range (w * h), gray i
  let sumT2 : ℚ := ∑ i ∈ Finset.range (w * h), gray i * gray i
  let n : ℚ := (w * h : ℕ)
  { gray := gray
    sumT := sumT
    sumT2 := sumT2
    W := w
    H := h
    meanT := sumT / n
    varT := (sumT2 - sumT * sumT / n) / n }

/-- The package-level `tmplCacheByDim` map, keyed by `[2]int{w, h}`.  The
RWMutex only serialises access; sequentially the cache is a partial map. -/
def TmplCache : Type := ℕ × ℕ → Option TemplatePrecomp

/-- getTemplatePrecomp of `src/domain/capture/ncc.go`, with the cache state
made explicit: a `nil`/empty template yields no precomp; a cache hit on the
`(width, height)` key returns the cached value without reading the template
pixels; a miss builds, inserts (first writer wins — sequentially the
double-checked entry is still absent) and returns the new precomp. -/
def getTemplatePrecomp (c : TmplCache) (tmpl : Img) :
    Option TemplatePrecomp × TmplCache :=
  if tmpl.W = 0 ∨ tmpl.H = 0 then (none, c)
  else
    match c (tmpl.W, tmpl.H) with
    | some pc => (some pc, c)
    | none =>
        let pc := buildTemplatePrecomp tmpl
        (some pc, fun k => if k = (tmpl.W, tmpl.H) then some pc else c k)

/-- grayPrecomp of `src/domain/capture/ncc.go`: the per-pixel grayscale of a
frame, row-major.  The two summed-area tables the Go constructor fills are
recovered by `GrayPrecomp.integral` / `GrayPrecomp.integralSq` below, which
follow the same row-by-row recurrence. -/
structure GrayPrecomp where
  gray : ℕ → ℚ
  W : ℕ
  H : ℕ

/-- buildGrayPrecomp: grayscale conversion of a frame (alpha-zero pixels
contribute zero, exactly as the `a != 0` branch leaves `gray = 0`). -/
def buildGrayPrecomp (frame : Img) : GrayPrecomp :=
  { gray := fun i =>
      if i < frame.W * frame.H then grayOfPix (frame.px (i % frame.W) (i / frame.W))
      else 0
    W := frame.W
    H := frame.H }

/-- Running row sum `rowSum` of the Go constructor: the grayscale of row `y`
accumulated through column `x`. -/
def rowSum (g : ℕ → ℕ → ℚ) (x y : ℕ) : ℚ :=
  ∑ x' ∈ Finset.range (x + 1), g x' y

/-- The summed-area table the Go constructor builds: row 0 holds the running
row sums, every later row adds the cell one row up (`I[off] =
I[(y-1)*W+x] + rowSum`). -/
def integralTab (g : ℕ → ℕ → ℚ) : ℕ → ℕ → ℚ
  | x, 0 => rowSum g x 0
  | x, y + 1 => integralTab g x y + rowSum g x (y + 1)

/-- Grayscale of a frame cell addressed by `(x, y)` (`gray[y*W+x]`). -/
def GrayPrecomp.g2 (p : GrayPrecomp) (x y : ℕ) : ℚ :=
  p.gray (y * p.W + x)

/-- The `integral` table of the frame precomp. -/
def GrayPrecomp.integral (p : GrayPrecomp) : ℕ → ℕ → ℚ :=
  integralTab p.g2

/-- The `integralSq` table of the frame precomp (summed squares). -/
def GrayPrecomp.integralSq (p : GrayPrecomp) : ℕ → ℕ → ℚ :=
  integralTab fun x y => p.g2 x y * p.g2 x y

/-- The guarded table read `A(x, y)` inside `integralSum`: zero for negative
indices. -/
def tabAt (I : ℕ → ℕ → ℚ) (x y : ℤ) : ℚ :=
  if x < 0 ∨ y < 0 then 0 else I x.toNat y.toNat

/-- integralSum of `ncc.go`: the inclusive rectangle sum
`A(x1,y1) - A(x0-1,y1) - A(x1,y0-1) + A(x0-1,y0-1)`. -/
def integralSum (I : ℕ → ℕ → ℚ) (x0 y0 x1 y1 : ℤ) : ℚ :=
  if x0 > x1 ∨ y0 > y1 then 0
  else tabAt I x1 y1 - tabAt I (x0 - 1) y1 - tabAt I x1 (y0 - 1) +
    tabAt I (x0 - 1) (y0 - 1)

/-- NCCOptions of `src/domain/capture/ncc.go` (`DebugTiming` only gates the
timing instrumentation and is dropped from the model). -/
structure NCCOptions where
  Threshold : ℚ
  Stride : ℕ
  Refine : Bool
  ReturnBestEven : Bool

/-- NCCResult (the `Dur` instrumentation field is dropped). -/
structure NCCResult where
  X : ℕ
  Y : ℕ
  Score : ℝ
  Found : Bool

/-- The values visited by `for v := 0; v <= limit; v += stride` for a
positive stride: `0, stride, 2*stride, …` up to `limit`. -/
def stridePts (limit stride : ℕ) : List ℕ :=
  (List.range (limit / stride + 1)).map fun k => k * stride

/-- Row-major scan positions `(y, x)` of the two nested candidate-window
loops. -/
def scanPts (W H w h stride : ℕ) : List (ℕ × ℕ) :=
  (stridePts (H - h) stride).flatMap fun y =>
    (stridePts (W - w) stride).map fun x => (y, x)

/-- Whole-window comparison of the constant-template branch: every template
slot position must carry frame grayscale within `1e-9` of `ref` (`ok` stays
true iff no pixel fails the `> 1e-9` test). -/
def constWindowOk (pre : GrayPrecomp) (pc : TemplatePrecomp) (ref : ℚ)
    (x y : ℕ) : Bool :=
  (List.range (pc.W * pc.H)).all fun i =>
    |pre.gray ((y + i / pc.W) * pre.W + (x + i % pc.W)) - ref| ≤ (1e-9 : ℚ)

/-- The equality scan of the constant-template branch: positions are tried
in row-major order; a window is accepted when its centre pixel and then all
its pixels lie within `1e-9` of `ref`, giving score 1; if the scan runs out
the zero-value result with the sentinel score `-1` is returned. -/
def constScan (pre : GrayPrecomp) (pc : TemplatePrecomp) (ref : ℚ) :
    List (ℕ × ℕ) → NCCResult
  | [] => { X := 0, Y := 0, Score := -1, Found := false }
  | (y, x) :: rest =>
      let center := pre.gray ((y + pc.H / 2) * pre.W + (x + pc.W / 2))
      if (1e-9 : ℚ) < |center - ref| then constScan pre pc ref rest
      else if constWindowOk pre pc ref x y then
        { X := x, Y := y, Score := 1, Found := true }
      else constScan pre pc ref rest

/-- Window grayscale sum `sumF` of the scoring loop body: the `integralSum`
read over the inclusive rectangle `[x, x+w-1] × [y, y+h-1]` (Go `int`
arithmetic maps to `ℤ`). -/
def windowSumF (pre : GrayPrecomp) (w h x y : ℕ) : ℚ :=
  integralSum pre.integral (x : ℤ) (y : ℤ) ((x : ℤ) + w - 1) ((y : ℤ) + h - 1)

/-- Window squared-grayscale sum `sumF2` of the scoring loop body. -/
def windowSumF2 (pre : GrayPrecomp) (w h x y : ℕ) : ℚ :=
  integralSum pre.integralSq (x : ℤ) (y : ℤ) ((x : ℤ) + w - 1) ((y : ℤ) + h - 1)

/-- Window variance `varF = (sumF2 - sumF*sumF/n) / n` of the scoring loop
body. -/
def windowVarF (pre : GrayPrecomp) (w h x y : ℕ) : ℚ :=
  (windowSumF2 pre w h x y -
      windowSumF pre w h x y * windowSumF pre w h x y / ((w * h : ℕ) : ℚ)) /
    ((w * h : ℕ) : ℚ)

/-- Dot product `sumFT` of the scoring loop body, iterating template slots in
linear order (`py = i / w`, `px = i % w`). -/
def windowSumFT (pre : GrayPrecomp) (pc : TemplatePrecomp) (x y : ℕ) : ℚ :=
  ∑ i ∈ Finset.range (pc.W * pc.H),
    pre.gray ((y + i / pc.W) * pre.W + (x + i % pc.W)) * pc.gray i

open Classical in
/-- The per-window part of the scoring loop body: window sums and variance
through the integral tables, the `varF <= 1e-9` and `denom <= 0` `continue`
guards, and the NCC score `(sumFT - n*meanF*meanT) / (n*stdF*stdT)`.
`none` models a `continue`. -/
noncomputable def evalWindow (pre : GrayPrecomp) (pc : TemplatePrecomp)
    (x y : ℕ) : Option ℝ :=
  let n : ℚ := (pc.W * pc.H : ℕ)
  let meanF := windowSumF pre pc.W pc.H x y / n
  let varF := windowVarF pre pc.W pc.H x y
  if varF ≤ (1e-9 : ℚ) then none
  else
    let stdF : ℝ := Real.sqrt varF
    let numer : ℝ := (windowSumFT pre pc x y : ℝ) - (n : ℝ) * (meanF : ℝ) * (pc.meanT : ℝ)
    let denom : ℝ := (n : ℝ) * stdF * pc.stdT
    if denom ≤ 0 then none else some (numer / denom)

open Classical in
/-- The best-score fold of the scoring loops: a window that is not skipped
replaces the running best exactly when its score is strictly greater. -/
noncomputable def scanBest (f : ℕ → ℕ → Option ℝ) :
    List (ℕ × ℕ) → ℝ × ℕ × ℕ → ℝ × ℕ × ℕ
  | [], best => best
  | (y, x) :: rest, best =>
      scanBest f rest
        (match f x y with
         | none => best
         | some sc => if best.1 < sc then (sc, x, y) else best)

/-- Positions `(y, x)` of the refinement rectangle, row-major at stride 1. -/
def rectPts (minX maxX minY maxY : ℕ) : List (ℕ × ℕ) :=
  ((List.range (maxY + 1 - minY)).map fun d => minY + d).flatMap fun y =>
    ((List.range (maxX + 1 - minX)).map fun d => minX + d).map fun x => (y, x)

open Classical in
/-- Normal-path best selection of `matchTemplateNCCGrayIntegralPre`: the
coarse scan at the (defaulted) stride, then the optional refinement pass on
the `±stride` rectangle around the coarse best (clamped to the valid window
range, `max(0, ·)` being `ℕ` truncated subtraction). -/
noncomputable def normalScanBest (pre : GrayPrecomp) (pc : TemplatePrecomp)
    (opts : NCCOptions) (W H : ℕ) : ℝ × ℕ × ℕ :=
  let stride := if opts.Stride = 0 then 1 else opts.Stride
  let best := scanBest (fun x y => evalWindow pre pc x y)
    (scanPts W H pc.W pc.H stride) (-1, 0, 0)
  if opts.Refine = true ∧ 1 < stride then
    scanBest (fun x y => evalWindow pre pc x y)
      (rectPts (best.2.1 - stride) (min (W - pc.W) (best.2.1 + stride))
        (best.2.2 - stride) (min (H - pc.H) (best.2.2 + stride))) best
  else best

open Classical in
/-- matchTemplateNCCGrayIntegralPre of `src/domain/capture/ncc.go`.  The
`nil` receiver guards disappear (the embedded structures are never nil);
the final `ReturnBestEven` branch re-assigns the very coordinates already
stored and is therefore a no-op. -/
noncomputable def matchTemplateNCCGrayIntegralPre (frame : Img)
    (pc : TemplatePrecomp) (opts : NCCOptions) (pre : GrayPrecomp) :
    NCCResult :=
  let W := frame.W
  let H := frame.H
  let w := pc.W
  let h := pc.H
  if w = 0 ∨ h = 0 ∨ W < w ∨ H < h then
    { X := 0, Y := 0, Score := -1, Found := false }
  else if pc.stdT ≤ (1e-9 : ℚ) then
    constScan pre pc (pc.gray 0) (scanPts W H w h opts.Stride)
  else
    let best2 := normalScanBest pre pc opts W H
    { X := best2.2.1
      Y := best2.2.2
      Score := best2.1
      Found := if (opts.Threshold : ℝ) ≤ best2.1 then true else false }

/-- Exclusive-bound double prefix sum: all cells with `x < a`, `y < b`. -/
def prefixSum2 (g : ℕ → ℕ → ℚ) (a b : ℕ) : ℚ :=
  ∑ dy ∈ Finset.range b, ∑ dx ∈ Finset.range a, g dx dy

/-- Statistical consistency of a template precomp: the stored sums, mean and
variance are those of the stored grayscale slots.  It holds for every
precomp the code builds. -/
def TemplatePrecomp.consistent (pc : TemplatePrecomp) : Prop :=
  pc.sumT = (∑ i ∈ Finset.range (pc.W * pc.H), pc.gray i) ∧
  pc.sumT2 = (∑ i ∈ Finset.range (pc.W * pc.H), pc.gray i * pc.gray i) ∧
  pc.meanT = pc.sumT / ((pc.W * pc.H : ℕ) : ℚ) ∧
  pc.varT = (pc.sumT2 - pc.sumT * pc.sumT / ((pc.W * pc.H : ℕ) : ℚ)) / ((pc.W * pc.H : ℕ) : ℚ)

/-- Fully opaque black pixel. -/
def pixBlack : Pix := ⟨0, 0, 0, 65535⟩

/-- Fully opaque white pixel (16-bit channel scale). -/
def pixWhite : Pix := ⟨65535, 65535, 65535, 65535⟩

/-- Fully transparent pixel with arbitrary colour content. -/
def pixMasked : Pix := ⟨12345, 999, 1, 0⟩

/-- A 2x2 template: three opaque black pixels and one fully transparent
pixel at `(1, 0)`. -/
def tmplMask : Img := ⟨2, 2, fun x y => if x = 1 ∧ y = 0 then pixMasked else pixBlack⟩

/-- A 2x2 all-black frame. -/
def frameBlack : Img := ⟨2, 2, fun _ _ => pixBlack⟩

/-- The all-black frame altered only at `(1, 0)` — the coordinate lying under
the template's transparent pixel. -/
def frameAltered : Img := ⟨2, 2, fun x y => if x = 1 ∧ y = 0 then pixWhite else pixBlack⟩

/-- Threshold 0.8, stride 1, no refinement. -/
def optsPlain : NCCOptions := ⟨0.8, 1, false, false⟩

/-- A 2x2 all-white template, sharing dimensions with `tmplMask` but not
pixel content. -/
def tmplWhite : Img := ⟨2, 2, fun _ _ => pixWhite⟩

/-- A cache already holding the precomp of the white template under key
`(2, 2)`. -/
def cacheC10 : TmplCache := fun k => if k = (2, 2) then some (buildTemplatePrecomp tmplWhite) else none

/-- Go's `int(x)` conversion for float64: truncation toward zero. -/
def goInt (q : ℚ) : ℤ :=
  if q < 0 then -Int.floor (-q) else Int.floor q

/-- The scale-generation loop of `MultiScaleMatchParallel`
(`for s := min; s <= max+1e-9 && len(scales) < maxSteps; s += step`):
`room` is the remaining capacity `maxSteps - len(scales)`. -/
def genLoop (maxS step : ℚ) : ℚ → ℕ → List ℚ
  | _, 0 => []
  | s, room + 1 =>
      if s ≤ maxS + (1e-9 : ℚ) then s :: genLoop maxS step (s + step) room else []

/-- The capped step count `maxSteps = min(200, 1 + int((max-min)/step + 0.5))`. -/
def goSteps (minS maxS step : ℚ) : ℕ :=
  (if 200 < 1 + goInt ((maxS - minS) / step + 0.5) then 200
   else 1 + goInt ((maxS - minS) / step + 0.5)).toNat

/-- Scale list generated when no explicit list is supplied (the factors of
the `ScaleSpec` values, in order). -/
def genScales (minS maxS step : ℚ) : List ℚ :=
  genLoop maxS step minS (goSteps minS maxS step)

/-- Config of `src/config/config.go` (floats as `ℚ`, ints as `ℤ`; the
`ReelKey` string only names an external key token and is dropped). -/
structure Config where
  Debug : Bool
  MinScale : ℚ
  MaxScale : ℚ
  ScaleStep : ℚ
  Threshold : ℚ
  Stride : ℤ
  Refine : Bool
  UseRGB : Bool
  StopOnScore : ℚ
  ReturnBestEven : Bool
  SelectionX : ℤ
  SelectionY : ℤ
  SelectionW : ℤ
  SelectionH : ℤ
  ROISizePx : ℤ
  MaxCastDurationSeconds : ℤ
  CooldownSeconds : ℤ

/-- DefaultConfig of `config.go`. -/
def DefaultConfig : Config :=
  { Debug := false
    MinScale := 0.90
    MaxScale := 1.90
    ScaleStep := 0.1
    Threshold := 0.80
    Stride := 4
    Refine := true
    UseRGB := false
    StopOnScore := 0.93
    ReturnBestEven := true
    SelectionX := 0
    SelectionY := 0
    SelectionW := 0
    SelectionH := 0
    ROISizePx := 80
    MaxCastDurationSeconds := 16
    CooldownSeconds := 7 }

/-- Validate of `config.go`, one clamp statement per step (the `ReelKey`
string default is dropped with the field).  Each step is one `if` of the Go
method, applied in the source's order; the method always returns a nil
error. -/
def vStep1 (c : Config) : Config :=
  if c.MinScale ≤ 0 then { c with MinScale := 0.60 } else c

/-- `if c.MaxScale <= 0 || c.MaxScale < c.MinScale`. -/
def vStep2 (c : Config) : Config :=
  if c.MaxScale ≤ 0 ∨ c.MaxScale < c.MinScale then
    { c with MaxScale := c.MinScale + 0.80 } else c

/-- `if c.ScaleStep <= 0`. -/
def vStep3 (c : Config) : Config :=
  if c.ScaleStep ≤ 0 then { c with ScaleStep := 0.05 } else c

/-- `if c.ScaleStep > (c.MaxScale - c.MinScale)`. -/
def vStep4 (c : Config) : Config :=
  if c.MaxScale - c.MinScale < c.ScaleStep then
    { c with ScaleStep := (c.MaxScale - c.MinScale) / 4 } else c

/-- `if c.Threshold <= 0 || c.Threshold > 1`. -/
def vStep5 (c : Config) : Config :=
  if c.Threshold ≤ 0 ∨ 1 < c.Threshold then { c with Threshold := 0.80 } else c

/-- `if c.Stride <= 0`. -/
def vStep6 (c : Config) : Config :=
  if c.Stride ≤ 0 then { c with Stride := 4 } else c

/-- `if c.StopOnScore < 0 || c.StopOnScore > 1`. -/
def vStep7 (c : Config) : Config :=
  if c.StopOnScore < 0 ∨ 1 < c.StopOnScore then { c with StopOnScore := 0.95 } else c

/-- `if c.ROISizePx < 32`. -/
def vStep8 (c : Config) : Config :=
  if c.ROISizePx < 32 then { c with ROISizePx := 32 } else c

/-- `if c.ROISizePx > 256`. -/
def vStep9 (c : Config) : Config :=
  if 256 < c.ROISizePx then { c with ROISizePx := 256 } else c

/-- `if c.MaxCastDurationSeconds < 5`. -/
def vStep10 (c : Config) : Config :=
  if c.MaxCastDurationSeconds < 5 then { c with MaxCastDurationSeconds := 5 } else c

/-- `if c.MaxCastDurationSeconds > 180`. -/
def vStep11 (c : Config) : Config :=
  if 180 < c.MaxCastDurationSeconds then { c with MaxCastDurationSeconds := 180 } else c

/-- `if c.CooldownSeconds <= 0`. -/
def vStep12 (c : Config) : Config :=
  if c.CooldownSeconds ≤ 0 then { c with CooldownSeconds := 1 } else c

/-- `if c.CooldownSeconds > 60`. -/
def vStep13 (c : Config) : Config :=
  if 60 < c.CooldownSeconds then { c with CooldownSeconds := 60 } else c

/-- The whole Validate pipeline in statement order. -/
def Config.Validate (c : Config) : Config :=
  vStep13 (vStep12 (vStep11 (vStep10 (vStep9 (vStep8 (vStep7 (vStep6 (vStep5
    (vStep4 (vStep3 (vStep2 (vStep1 c))))))))))))

/-- BiteDetector state of `src/domain/fishing/bite_detector.go`.  The three
byte slices are total functions plus a `prevInit` flag standing for
`prev != nil`; times are rational seconds (`time.Time{}` is `0`). -/
structure BiteDetector where
  cfg : Config
  monitoringStarted : ℚ
  prevInit : Bool
  prev : ℕ → ℕ
  ema : ℕ → ℕ
  cur : ℕ → ℕ
  w : ℕ
  h : ℕ
  window : ℕ → ℚ
  wIdx : ℕ
  wCount : ℕ
  frameCnt : ℕ
  triggered : Bool
  lastSpike : ℚ
  lastFrameTS : ℚ
  prevCandidate : Bool
  candidateFrames : ℕ
  statsFrozen : Bool
  framesCandidateStarted : ℕ
  framesCandidateAborted : ℕ
  maxConsecutiveCandidate : ℕ
  minDT : ℚ
  maxDT : ℚ
  minRatioChanged : ℚ
  maxRatioChanged : ℚ
  minDiffBaseMean : ℚ
  maxDiffBaseMean : ℚ
  lastDT : ℚ
  lastRatioChanged : ℚ
  lastDiffBaseMean : ℚ
  lastCandidateSpike : Bool
  lastCandidateBaseJump : Bool
  lastCandidateBigImmediate : Bool

/-- NewBiteDetector: zero state with the window allocated and a defaulted
config when nil is passed. -/
def NewBiteDetector (cfg : Option Config) : BiteDetector :=
  { cfg := cfg.getD DefaultConfig
    monitoringStarted := 0
    prevInit := false
    prev := fun _ => 0
    ema := fun _ => 0
    cur := fun _ => 0
    w := 0
    h := 0
    window := fun _ => 0
    wIdx := 0
    wCount := 0
    frameCnt := 0
    triggered := false
    lastSpike := 0
    lastFrameTS := 0
    prevCandidate := false
    candidateFrames := 0
    statsFrozen := false
    framesCandidateStarted := 0
    framesCandidateAborted := 0
    maxConsecutiveCandidate := 0
    minDT := 0
    maxDT := 0
    minRatioChanged := 0
    maxRatioChanged := 0
    minDiffBaseMean := 0
    maxDiffBaseMean := 0
    lastDT := 0
    lastRatioChanged := 0
    lastDiffBaseMean := 0
    lastCandidateSpike := false
    lastCandidateBaseJump := false
    lastCandidateBigImmediate := false }

/-- Reset of `bite_detector.go`: clears state and stamps the session start. -/
def BiteDetector.Reset (b : BiteDetector) (now : ℚ) : BiteDetector :=
  { b with
    monitoringStarted := now
    prevInit := false
    prev := fun _ => 0
    ema := fun _ => 0
    cur := fun _ => 0
    w := 0
    h := 0
    wIdx := 0
    wCount := 0
    frameCnt := 0
    triggered := false
    lastSpike := 0
    lastFrameTS := 0
    prevCandidate := false
    candidateFrames := 0
    statsFrozen := false
    framesCandidateStarted := 0
    framesCandidateAborted := 0
    maxConsecutiveCandidate := 0
    minDT := 0
    maxDT := 0
    minRatioChanged := 0
    maxRatioChanged := 0
    minDiffBaseMean := 0
    maxDiffBaseMean := 0
    lastDT := 0
    lastRatioChanged := 0
    lastDiffBaseMean := 0
    lastCandidateSpike := false
    lastCandidateBaseJump := false
    lastCandidateBigImmediate := false
    window := fun _ => 0 }

/-- Single-byte luma of `FeedFrame`: `byte((77r + 150g + 29b) >> 8)`. -/
def lumaByte (p : Pix) : ℕ :=
  ((77 * p.r + 150 * p.g + 29 * p.b) / 256) % 256

/-- Absolute pixel difference (`diffPrev`/`diffBase` after the sign fold). -/
def absDiff (a b : ℕ) : ℕ :=
  ((a : ℤ) - (b : ℤ)).natAbs

/-- The Welford pass over the first `wCount` window slots: running mean and
`m2` accumulator, exactly as the loop updates them (`i = 0` seeds the mean). -/
def welford (win : ℕ → ℚ) (wCount : ℕ) : ℚ × ℚ :=
  (List.range wCount).foldl
    (fun acc i =>
      let x := win i
      if i = 0 then (x, acc.2)
      else
        let delta := x - acc.1
        let mean := acc.1 + delta / (i + 1)
        (mean, acc.2 + delta * (x - mean)))
    (0, 0)

/-- One pixel of the EMA baseline update
(`ema += int(float64(cur-ema)*0.03)`, clamped to `[0, 255]`). -/
def emaStep (ema cur : ℕ) : ℕ :=
  let v : ℤ := (ema : ℤ) + goInt ((((cur : ℤ) - (ema : ℤ) : ℤ) : ℚ) * 0.03)
  if v < 0 then 0 else if 255 < v then 255 else v.toNat

/-- Common tail of `FeedFrame` past the trigger decision: store
`prevCandidate`, advance the rolling window unless frozen, update the EMA
baseline unless triggered (slots beyond `w*h` hold `0` and are fixed points
of `emaStep`), then copy `prev`, bump `frameCnt`, stamp the time and report
no bite. -/
def feedTail (b : BiteDetector) (candidate : Bool) (dt : ℚ) (cur : ℕ → ℕ)
    (t : ℚ) : BiteDetector × Bool :=
  let bA := { b with prevCandidate := candidate }
  let bB := if bA.statsFrozen = false then
      { bA with
        window := (fun j => if j = bA.wIdx then dt else bA.window j),
        wIdx := (bA.wIdx + 1) % 20,
        wCount := if bA.wCount < 20 then bA.wCount + 1 else bA.wCount }
    else bA
  let bC := if bB.triggered = false then
      { bB with ema := fun i => emaStep (bB.ema i) (cur i) }
    else bB
  ({ bC with prev := cur, frameCnt := bC.frameCnt + 1, lastFrameTS := t }, false)

open Classical in
/-- The three candidate conditions of `FeedFrame` (spike, baseJump,
bigImmediate) from the rolling window's Welford mean and standard deviation
(`minFramesForStats = 5`, `stdDevMultiplier = 2.0`, thresholds `0.18`,
`14`/`0.12` and `0.20`/`12`). -/
noncomputable def candidateFlags (window : ℕ → ℚ) (wCount : ℕ)
    (dt ratioChanged diffBaseMean : ℚ) : Bool × Bool × Bool :=
  let mw := welford window wCount
  let stdR : ℝ :=
    if 1 < wCount then
      let s := mw.2 / ((wCount : ℚ) - 1)
      if 0 < s then Real.sqrt s else (s : ℝ)
    else 0
  let spike : Bool := decide (5 ≤ wCount ∧
    (mw.1 : ℝ) + 2.0 * stdR < (dt : ℝ) ∧ (18 : ℚ) / 100 < ratioChanged)
  let baseJump : Bool := decide ((14 : ℚ) < diffBaseMean ∧ (12 : ℚ) / 100 < ratioChanged)
  let bigImmediate : Bool := decide (wCount < 5 ∧
    (20 : ℚ) / 100 < ratioChanged ∧ (12 : ℚ) < dt)
  (spike, baseJump, bigImmediate)

/-- The min/max instrumentation block of `FeedFrame` (executed when
`frameCnt > 0`), including the `lastDT`/`lastRatioChanged`/`lastDiffBaseMean`
assignments. -/
def statsMinMax (b : BiteDetector) (dt ratioChanged diffBaseMean : ℚ) :
    BiteDetector :=
  if 0 < b.frameCnt then
    let b' :=
      if b.minDT = (0 : ℚ) ∧ b.maxDT = (0 : ℚ) then
        { b with
          minDT := dt
          maxDT := dt
          minRatioChanged := ratioChanged
          maxRatioChanged := ratioChanged
          minDiffBaseMean := diffBaseMean
          maxDiffBaseMean := diffBaseMean }
      else
        { b with
          minDT := (if dt < b.minDT then dt else b.minDT)
          maxDT := (if dt < b.minDT then b.maxDT else if b.maxDT < dt then dt else b.maxDT)
          minRatioChanged := (if ratioChanged < b.minRatioChanged then ratioChanged else b.minRatioChanged)
          maxRatioChanged := (if ratioChanged < b.minRatioChanged then b.maxRatioChanged else if b.maxRatioChanged < ratioChanged then ratioChanged else b.maxRatioChanged)
          minDiffBaseMean := (if diffBaseMean < b.minDiffBaseMean then diffBaseMean else b.minDiffBaseMean)
          maxDiffBaseMean := (if diffBaseMean < b.minDiffBaseMean then b.maxDiffBaseMean else if b.maxDiffBaseMean < diffBaseMean then diffBaseMean else b.maxDiffBaseMean) }
    { b' with
      lastDT := dt
      lastRatioChanged := ratioChanged
      lastDiffBaseMean := diffBaseMean }
  else b

/-- The debounce/trigger decision of `FeedFrame` (`frameDebounceNeeded = 1`):
a candidate frame extends the run and triggers once the run is long enough
(or immediately on `bigImmediate`); a non-candidate frame resets the run and
unfreezes the statistics; the non-triggering paths fall through to
`feedTail`. -/
def feedDecide (b3 : BiteDetector) (candidate bigImmediate : Bool) (dt : ℚ)
    (cur : ℕ → ℕ) (t : ℚ) : BiteDetector × Bool :=
  if candidate = true then
    let cf := b3.candidateFrames + 1
    let b4 := { b3 with
      candidateFrames := cf
      statsFrozen := (if b3.prevCandidate = false then true else b3.statsFrozen)
      maxConsecutiveCandidate := (if b3.maxConsecutiveCandidate < cf then cf else b3.maxConsecutiveCandidate) }
    if 1 ≤ cf ∨ (bigImmediate = true ∧ cf = 1) then
      ({ b4 with triggered := true }, true)
    else
      feedTail b4 candidate dt cur t
  else
    feedTail { b3 with candidateFrames := 0, statsFrozen := false }
      candidate dt cur t

set_option maxHeartbeats 1000000 in
open Classical in
/-- FeedFrame of `bite_detector.go`, as a pure state transition returning
the new detector and the triggered flag.  Mutation order follows the
source: slice (re)allocation, luma conversion, first-frame seeding, the
three difference statistics, then the candidate conditions
(`candidateFlags`), min/max instrumentation (`statsMinMax`), the trigger
decision (`feedDecide`) and the shared tail (`feedTail`). -/
noncomputable def FeedFrame (b0 : BiteDetector) (frame : Option Img) (t : ℚ) :
    BiteDetector × Bool :=
  match frame with
  | none => (b0, false)
  | some fr =>
      if b0.triggered then (b0, false)
      else
        let w := fr.W
        let h := fr.H
        let n := w * h
        if w = 0 ∨ h = 0 then (b0, false)
        else
          let b1 := if b0.prevInit = false ∨ w ≠ b0.w ∨ h ≠ b0.h then
              { b0 with
                prev := (fun _ => 0),
                ema := (fun _ => 0),
                cur := (fun _ => 0),
                w := w,
                h := h,
                prevInit := true }
            else b0
          let cur : ℕ → ℕ := fun i => if i < n then lumaByte (fr.px (i % w) (i / w)) else 0
          let b2 := { b1 with cur := cur }
          if b2.frameCnt = 0 then
            ({ b2 with
                prev := cur,
                ema := cur,
                frameCnt := b2.frameCnt + 1,
                lastFrameTS := t }, false)
          else
            let sumPrev : ℕ := ∑ i ∈ Finset.range n, absDiff (cur i) (b2.prev i)
            let changedPixels : ℕ :=
              ((Finset.range n).filter fun i => 10 < absDiff (cur i) (b2.prev i)).card
            let sumBase : ℕ := ∑ i ∈ Finset.range n, absDiff (cur i) (b2.ema i)
            let dt : ℚ := (sumPrev : ℚ) / (n : ℚ)
            let ratioChanged : ℚ := (changedPixels : ℚ) / (n : ℚ)
            let diffBaseMean : ℚ := (sumBase : ℚ) / (n : ℚ)
            let flags := candidateFlags b2.window b2.wCount dt ratioChanged diffBaseMean
            let candidate : Bool := flags.1 || flags.2.1 || flags.2.2
            let b3 := statsMinMax b2 dt ratioChanged diffBaseMean
            feedDecide b3 candidate flags.2.2 dt cur t

/-- A detector that has already reported a bite. -/
def bdTriggered : BiteDetector :=
  { NewBiteDetector none with triggered := true, frameCnt := 3 }

/-- TargetLostHeuristic of `bite_detector.go`: the monitoring timeout,
compared against the session start (`time.Time{}` modelled as `0`). -/
def TargetLostHeuristic (b : BiteDetector) (now : ℚ) : Bool :=
  if b.cfg.MaxCastDurationSeconds ≤ 0 then false
  else if b.monitoringStarted = 0 then false
  else if (b.cfg.MaxCastDurationSeconds : ℚ) ≤ now - b.monitoringStarted then true
  else false

/-- FishingState of `src/domain/fishing/types.go`. -/
inductive FishingState where
  | Searching
  | Monitoring
  | Reeling
  | Cooldown
  | Casting
  | Halt
  | WaitingFocus
deriving DecidableEq

/-- The FishingFSM fields the event loop reads and writes.  Timers are
modelled by armed flags (their firing arrives as a `forceCast` event),
times are rational seconds, and the logger/action callbacks are external
side effects outside the model.  `listeners` counts registrations: each
emitted transition pair stands for one synchronous in-order call of every
registered listener. -/
structure FSMState where
  state : FishingState
  cooldownDuration : ℚ
  cooldownUntil : ℚ
  searchTimerArmed : Bool
  cooldownTimerArmed : Bool
  coordX : ℤ
  coordY : ℤ
  coordSet : Bool
  biteDetector : Option BiteDetector
  listeners : ℕ

/-- Events of the FSM loop (`evtAddListener` … `evtMonitoringFrame`).  The
monitoring-frame event carries its own sample time `tEvt` (`e.now`). -/
inductive Event where
  | addListener
  | targetAcquired
  | targetAcquiredAt (x y : ℤ)
  | targetLost
  | halt
  | fishBite
  | monitoringFrame (roi : Option Img) (tEvt : ℚ)
  | focusAcquired
  | awaitFocus
  | forceCast
  | cancel

/-- One pass of `transition` in `fsm.go` without the casting chain: the
`prev == next` early return, timer retirement, the per-state entry switch
(Reeling schedules the reel side effect, stamps `cooldownUntil` and is
rewritten to Cooldown before the state is committed; Cooldown arms its
timer; Monitoring builds and resets a fresh bite detector), the state
assignment, search-timer arming, and the single listener notification
`(prev, next)` emitted after the state is committed. -/
def transitionOnce (s0 : FSMState) (next0 : FishingState) (now : ℚ) :
    FSMState × List (FishingState × FishingState) :=
  let prev := s0.state
  if prev = next0 then (s0, [])
  else
    let s1 := if prev = FishingState.Searching ∧ next0 ≠ FishingState.Searching ∧
        s0.searchTimerArmed = true then { s0 with searchTimerArmed := false } else s0
    let s2 := if prev = FishingState.Cooldown ∧ next0 ≠ FishingState.Cooldown ∧
        s1.cooldownTimerArmed = true then { s1 with cooldownTimerArmed := false } else s1
    let step : FSMState × FishingState :=
      match next0 with
      | FishingState.Reeling =>
          ({ s2 with
              cooldownUntil := now + s2.cooldownDuration + 1 / 2,
              cooldownTimerArmed := true }, FishingState.Cooldown)
      | FishingState.Cooldown =>
          let s3 := if s2.cooldownUntil = 0 then
              { s2 with cooldownUntil := now + s2.cooldownDuration } else s2
          ({ s3 with cooldownTimerArmed := true }, FishingState.Cooldown)
      | FishingState.Monitoring =>
          ({ s2 with biteDetector := some ((NewBiteDetector none).Reset now) },
            FishingState.Monitoring)
      | other => (s2, other)
    let s4 := { step.1 with state := step.2 }
    let s5 := if s4.state = FishingState.Searching then
        { s4 with searchTimerArmed := true } else s4
    (s5, [(prev, step.2)])

/-- transition of `fsm.go` including the immediate `Casting → Searching`
chain that runs after the listeners have seen `(prev, Casting)`; the
`prev == next` early return leaves the whole call (no chain). -/
def transitionFull (s : FSMState) (next : FishingState) (now : ℚ) :
    FSMState × List (FishingState × FishingState) :=
  if s.state = next then (s, [])
  else
    let r1 := transitionOnce s next now
    if r1.1.state = FishingState.Casting then
      let r2 := transitionOnce r1.1 FishingState.Searching now
      (r2.1, r1.2 ++ r2.2)
    else r1

open Classical in
/-- The event-loop body of `fsm.go` (`loop`), one event at a time: guards and
state updates exactly as each `case` performs them.  `now` stands for
`time.Now()` at processing time. -/
noncomputable def stepEvent (s : FSMState) (e : Event) (now : ℚ) :
    FSMState × List (FishingState × FishingState) :=
  match e with
  | Event.addListener => ({ s with listeners := s.listeners + 1 }, [])
  | Event.targetAcquired =>
      if s.state = FishingState.Searching then
        transitionFull s FishingState.Monitoring now
      else (s, [])
  | Event.targetAcquiredAt x y =>
      let s1 := { s with coordX := x, coordY := y, coordSet := true }
      if s1.state = FishingState.Searching then
        transitionFull s1 FishingState.Monitoring now
      else (s1, [])
  | Event.targetLost =>
      if s.state = FishingState.Monitoring then
        transitionFull s FishingState.Casting now
      else (s, [])
  | Event.halt =>
      let s1 := { s with cooldownUntil := 0, coordSet := false }
      let s2 := match s1.biteDetector with
        | some bd => { s1 with biteDetector := some (bd.Reset now) }
        | none => s1
      transitionFull s2 FishingState.Halt now
  | Event.fishBite =>
      if s.state = FishingState.Monitoring then
        transitionFull s FishingState.Reeling now
      else (s, [])
  | Event.monitoringFrame roi tEvt =>
      match s.biteDetector, roi with
      | some bd, some r =>
          if s.state = FishingState.Monitoring then
            let fed := FeedFrame bd (some r) tEvt
            let s1 := { s with biteDetector := some fed.1 }
            if fed.2 = true then transitionFull s1 FishingState.Reeling now
            else if TargetLostHeuristic fed.1 now = true then
              transitionFull s1 FishingState.Casting now
            else (s1, [])
          else (s, [])
      | _, _ => (s, [])
  | Event.focusAcquired =>
      if s.state = FishingState.WaitingFocus then
        transitionFull s FishingState.Searching now
      else (s, [])
  | Event.awaitFocus =>
      if s.state = FishingState.Halt then
        transitionFull s FishingState.WaitingFocus now
      else (s, [])
  | Event.forceCast =>
      if s.state ≠ FishingState.Casting then
        transitionFull s FishingState.Casting now
      else (s, [])
  | Event.cancel => ({ s with cooldownUntil := 0 }, [])

/-- TargetCoordinates of `fsm.go`. -/
def TargetCoordinates (s : FSMState) : ℤ × ℤ × Bool :=
  if s.coordSet = false then (0, 0, false) else (s.coordX, s.coordY, true)

/-- The state a `transition(next)` call commits before notifying listeners:
`next`, except that entering Reeling is rewritten to Cooldown. -/
def effNext : FishingState → FishingState
  | FishingState.Reeling => FishingState.Cooldown
  | s => s

/-- A machine resting in Searching (fresh session, no locked target). -/
def fsmSearching : FSMState where
  state := FishingState.Searching
  cooldownDuration := 3
  cooldownUntil := 0
  searchTimerArmed := true
  cooldownTimerArmed := false
  coordX := 0
  coordY := 0
  coordSet := false
  biteDetector := none
  listeners := 1

/-- A halted machine (after EventHalt, before any restart). -/
def fsmHalt : FSMState where
  state := FishingState.Halt
  cooldownDuration := 3
  cooldownUntil := 0
  searchTimerArmed := false
  cooldownTimerArmed := false
  coordX := 0
  coordY := 0
  coordSet := false
  biteDetector := none
  listeners := 1

/-- MultiScaleOptions of `multi_scale.go` (the `ScaleSpec` wrapper reduces to
its `Factor` field; `DebugTiming` instrumentation is dropped). -/
structure MultiScaleOptions where
  Scales : List ℚ
  NCC : NCCOptions
  StopOnScore : ℚ
  MinScale : ℚ
  MaxScale : ℚ
  ScaleStep : ℚ

/-- MultiScaleResult of `multi_scale.go` (`Duration` instrumentation
dropped). -/
structure MultiScaleResult where
  X : ℕ
  Y : ℕ
  Score : ℝ
  Scale : ℚ
  Found : Bool
  ScalesEvaluated : ℕ

/-- The bilinear sample of the base template grayscale at scaled pixel
`(x, y)`: the inner-loop arithmetic of `getScaledTemplatePrecompFromBase`
(coordinate mapping `(v+0.5)*f-0.5` clamped to `[0, dim-1]`, floor split,
neighbour clamp, two-axis interpolation). -/
def bilinearAt (base : TemplatePrecomp) (w h x y : ℕ) : ℚ :=
  let bw := base.W
  let bh := base.H
  let fx : ℚ := (bw : ℚ) / (w : ℚ)
  let fy : ℚ := (bh : ℚ) / (h : ℚ)
  let ys0 : ℚ := ((y : ℚ) + 1 / 2) * fy - 1 / 2
  let ys : ℚ :=
    if ys0 < 0 then 0
    else if (((bh : ℤ) - 1 : ℤ) : ℚ) < ys0 then (((bh : ℤ) - 1 : ℤ) : ℚ) else ys0
  let y0 : ℤ := Int.floor ys
  let y1 : ℤ := if (bh : ℤ) ≤ y0 + 1 then (bh : ℤ) - 1 else y0 + 1
  let dy : ℚ := ys - (y0 : ℚ)
  let xs0 : ℚ := ((x : ℚ) + 1 / 2) * fx - 1 / 2
  let xs : ℚ :=
    if xs0 < 0 then 0
    else if (((bw : ℤ) - 1 : ℤ) : ℚ) < xs0 then (((bw : ℤ) - 1 : ℤ) : ℚ) else xs0
  let x0 : ℤ := Int.floor xs
  let x1 : ℤ := if (bw : ℤ) ≤ x0 + 1 then (bw : ℤ) - 1 else x0 + 1
  let dx : ℚ := xs - (x0 : ℚ)
  let g00 := base.gray (y0 * bw + x0).toNat
  let g10 := base.gray (y0 * bw + x1).toNat
  let g01 := base.gray (y1 * bw + x0).toNat
  let g11 := base.gray (y1 * bw + x1).toNat
  let top := g00 * (1 - dx) + g10 * dx
  let bottom := g01 * (1 - dx) + g11 * dx
  top * (1 - dy) + bottom * dy

/-- The scaled `templatePrecomp` built on a cache miss by
`getScaledTemplatePrecompFromBase`: bilinear grayscale plus the same
sum/mean/variance formulas as the base constructor. -/
def buildScaledPrecomp (base : TemplatePrecomp) (w h : ℕ) : TemplatePrecomp :=
  let gray : ℕ → ℚ := fun i =>
    if i < w * h then bilinearAt base w h (i % w) (i / w) else 0
  let sumT : ℚ := ∑ i ∈ Finset.range (w * h), gray i
  let sumT2 : ℚ := ∑ i ∈ Finset.range (w * h), gray i * gray i
  let n : ℚ := (w * h : ℕ)
  { gray := gray
    sumT := sumT
    sumT2 := sumT2
    W := w
    H := h
    meanT := sumT / n
    varT := (sumT2 - sumT * sumT / n) / n }

/-- getScaledTemplatePrecompFromBase of `ncc.go`, with the shared
`tmplCacheByDim` map threaded through: guards, the exact `factor == 1.0`
pass-through, the truncated scaled dimensions, the `< 2` rejection, the
dimension-keyed lookup and the first-writer-wins insert. -/
def getScaledTemplatePrecompFromBase (c : TmplCache) (base : TemplatePrecomp)
    (factor : ℚ) : Option TemplatePrecomp × TmplCache :=
  if factor ≤ 0 then (none, c)
  else if factor = 1 then (some base, c)
  else
    let w : ℤ := goInt ((base.W : ℚ) * factor)
    let h : ℤ := goInt ((base.H : ℚ) * factor)
    if w < 2 ∨ h < 2 then (none, c)
    else
      match c (w.toNat, h.toNat) with
      | some pc => (some pc, c)
      | none =>
          let pc := buildScaledPrecomp base w.toNat h.toNat
          (some pc, fun k => if k = (w.toNat, h.toNat) then some pc else c k)

open Classical in
/-- The worker goroutines of `MultiScaleMatchParallel` in their sequential
interleaving (each spawned worker runs to completion before the next): a
non-positive factor is skipped before spawning, a worker that sees the
early-stop flag returns without publishing or counting, otherwise the scaled
precomp is fetched, the matcher runs, the scale is counted, and the result is
published — setting the flag first when it reaches `StopOnScore`.  Returns
(published results in order, final flag, scales evaluated, final cache). -/
noncomputable def msWorkers (frame : Img) (base : TemplatePrecomp)
    (opts : MultiScaleOptions) (pre : GrayPrecomp) :
    List ℚ → Bool → TmplCache →
      List MultiScaleResult × Bool × ℕ × TmplCache
  | [], early, c => ([], early, 0, c)
  | factor :: rest, early, c =>
      if factor ≤ 0 then msWorkers frame base opts pre rest early c
      else if early = true then msWorkers frame base opts pre rest early c
      else
        match getScaledTemplatePrecompFromBase c base factor with
        | (none, c1) => msWorkers frame base opts pre rest early c1
        | (some pc, c1) =>
            let res := matchTemplateNCCGrayIntegralPre frame pc opts.NCC pre
            let msr : MultiScaleResult :=
              { X := res.X
                Y := res.Y
                Score := res.Score
                Scale := factor
                Found := res.Found
                ScalesEvaluated := 0 }
            if 0 < opts.StopOnScore ∧ (opts.StopOnScore : ℝ) ≤ res.Score then
              let t := msWorkers frame base opts pre rest true c1
              (msr :: t.1, true, t.2.2.1 + 1, t.2.2.2)
            else
              let t := msWorkers frame base opts pre rest early c1
              (msr :: t.1, t.2.1, t.2.2.1 + 1, t.2.2.2)

open Classical in
/-- The consuming loop over the results channel: keep the strictly better
score, and break once the early-stop flag is set and the record just consumed
reaches `StopOnScore` (with `StopOnScore` enabled). -/
noncomputable def msAggregate (stopOn : ℚ) (early : Bool) :
    MultiScaleResult → List MultiScaleResult → MultiScaleResult
  | best, [] => best
  | best, r :: rest =>
      let best1 := if best.Score < r.Score then r else best
      if early = true ∧ 0 < stopOn ∧ (stopOn : ℝ) ≤ r.Score then best1
      else msAggregate stopOn early best1 rest

/-- The zero `MultiScaleResult{}` literal returned on nil inputs. -/
def msZero : MultiScaleResult :=
  { X := 0, Y := 0, Score := 0, Scale := 0, Found := false, ScalesEvaluated := 0 }

open Classical in
/-- The tail of `MultiScaleMatchParallel` after precomputation and scale-list
generation: run the workers over the scale list, fold the published results
from the initial `{Score: -1}`, and patch `ScalesEvaluated` when any scale
was evaluated. -/
noncomputable def msRun (frame : Img) (base : TemplatePrecomp)
    (opts : MultiScaleOptions) (pre : GrayPrecomp) (c : TmplCache) :
    MultiScaleResult × TmplCache :=
  let wk := msWorkers frame base opts pre opts.Scales false c
  let best := msAggregate opts.StopOnScore wk.2.1
    { X := 0, Y := 0, Score := -1, Scale := 0, Found := false, ScalesEvaluated := 0 } wk.1
  let best2 := if 0 < wk.2.2.1 then { best with ScalesEvaluated := wk.2.2.1 } else best
  (best2, wk.2.2.2)

open Classical in
/-- MultiScaleMatchParallel of `multi_scale.go` (also the body of the
forwarding `MultiScaleMatch`), with the template cache threaded: nil guards,
frame/template precomputation, generated scale list when none is given, then
the worker pass and aggregation of `msRun`. -/
noncomputable def MultiScaleMatchParallel (frame tmpl : Option Img)
    (opts0 : MultiScaleOptions) (c : TmplCache) :
    MultiScaleResult × TmplCache :=
  match frame, tmpl with
  | some fr, some tm =>
      let pre := buildGrayPrecomp fr
      match getTemplatePrecomp c tm with
      | (none, c1) => (msZero, c1)
      | (some base, c1) =>
          let opts :=
            if opts0.Scales = [] then
              (if 0 < opts0.MinScale ∧ 0 < opts0.MaxScale ∧ 0 < opts0.ScaleStep ∧
                  opts0.MinScale ≤ opts0.MaxScale then
                { opts0 with
                    Scales := genScales opts0.MinScale opts0.MaxScale opts0.ScaleStep }
              else opts0)
            else opts0
          msRun fr base opts pre c1
  | _, _ => (msZero, c)

/-- An opaque pixel with all three channels equal to `v` — its grayscale
luma is exactly `v`. -/
def pixVal (v : ℕ) : Pix := ⟨v, v, v, 65535⟩

/-- A 2x2 template with luma rows (11, 11) and (9, 9): mean 10, variance 1. -/
def tmplC4 : Img := ⟨2, 2, fun _ y => if y = 0 then pixVal 11 else pixVal 9⟩

/-- A 2x2 frame with lumas 15, 9 / 9, 7: window mean 10, variance 9, giving
an NCC score of 2/3 against `tmplC4`. -/
def frameC4 : Img :=
  ⟨2, 2, fun x y =>
    if y = 0 then (if x = 0 then pixVal 15 else pixVal 9)
    else (if x = 0 then pixVal 9 else pixVal 7)⟩

/-- Threshold 0.8, stride 1, no refinement (for the multi-scale run). -/
def optsNCC4 : NCCOptions := ⟨0.8, 1, false, false⟩

/-- Single explicit scale 1.0, `StopOnScore` 0.5 below the threshold 0.8. -/
def optsC4 : MultiScaleOptions := ⟨[1], optsNCC4, 0.5, 0, 0, 0⟩

/-- An empty template cache. -/
def noCache : TmplCache := fun _ => none

/-- The base template precomp of `tmplC4`. -/
def pcC4 : TemplatePrecomp := buildTemplatePrecomp tmplC4

/-- The frame precomp of `frameC4`. -/
def preC4 : GrayPrecomp := buildGrayPrecomp frameC4

/-- The multi-scale record published for `frameC4`/`tmplC4` at scale 1. -/
noncomputable def msrC4 : MultiScaleResult :=
  { X := 0, Y := 0, Score := (2 : ℝ) / 3, Scale := 1, Found := false, ScalesEvaluated := 0 }

/-- NCCOptions of the legacy `src/capture` package (`DebugTiming` dropped):
unlike the domain options it carries the `UseRGB` dispatch flag. -/
structure NCCOptionsL where
  Threshold : ℚ
  Stride : ℕ
  Refine : Bool
  ReturnBestEven : Bool
  UseRGB : Bool

/-- Forgetting the legacy-only flag when reusing the shared scan helpers. -/
def NCCOptionsL.toNCC (o : NCCOptionsL) : NCCOptions :=
  ⟨o.Threshold, o.Stride, o.Refine, o.ReturnBestEven⟩

/-- isTemplateFullyOpaque of `src/capture/ncc.go`. -/
def isTemplateFullyOpaque (tmpl : Img) : Bool :=
  (List.range (tmpl.W * tmpl.H)).all fun i =>
    (tmpl.px (i % tmpl.W) (i / tmpl.W)).a != 0

open Classical in
/-- matchTemplateNCCGrayIntegral of the legacy `src/capture/ncc.go`: template
statistics built inline exactly as `buildTemplatePrecomp` forms them, the
constant-template shortcut keyed on the variance (`varT <= 1e-9` — not the
standard deviation, as in the domain matcher), and the shared integral-table
scoring scan with its threshold flag. -/
noncomputable def matchTemplateNCCGrayIntegral (frame tmpl : Img)
    (opts : NCCOptionsL) (pre : GrayPrecomp) : NCCResult :=
  let pc := buildTemplatePrecomp tmpl
  let W := frame.W
  let H := frame.H
  if pc.W = 0 ∨ pc.H = 0 ∨ W < pc.W ∨ H < pc.H then
    { X := 0, Y := 0, Score := -1, Found := false }
  else if pc.varT ≤ (1e-9 : ℚ) then
    constScan pre pc (pc.gray 0) (scanPts W H pc.W pc.H opts.Stride)
  else
    let best2 := normalScanBest pre pc opts.toNCC W H
    { X := best2.2.1
      Y := best2.2.2
      Score := best2.1
      Found := if (opts.Threshold : ℝ) ≤ best2.1 then true else false }

/-- The masked linear offsets (`indices`) of the legacy RGB path: template
slots with nonzero alpha, in row-major order. -/
def maskedIdx (tmpl : Img) : List ℕ :=
  (List.range (tmpl.W * tmpl.H)).filter fun off =>
    (tmpl.px (off % tmpl.W) (off / tmpl.W)).a != 0

/-- A template colour channel at a linear offset (the `tR`/`tG`/`tB`
entries). -/
def chanT (tmpl : Img) (sel : Pix → ℕ) (off : ℕ) : ℚ :=
  (sel (tmpl.px (off % tmpl.W) (off / tmpl.W)) : ℚ)

/-- Per-channel masked template sum (`sumTR` etc.). -/
def sumChanT (tmpl : Img) (sel : Pix → ℕ) : ℚ :=
  ((maskedIdx tmpl).map (chanT tmpl sel)).sum

/-- Per-channel masked template square sum (`sumTR2` etc.). -/
def sumChanT2 (tmpl : Img) (sel : Pix → ℕ) : ℚ :=
  ((maskedIdx tmpl).map fun off => chanT tmpl sel off * chanT tmpl sel off).sum

/-- Per-channel template mean over the masked count (`meanTR` etc.). -/
def meanTC (tmpl : Img) (sel : Pix → ℕ) : ℚ :=
  sumChanT tmpl sel / ((maskedIdx tmpl).length : ℚ)

/-- Per-channel template variance (`varTR` etc.). -/
def varTC (tmpl : Img) (sel : Pix → ℕ) : ℚ :=
  (sumChanT2 tmpl sel -
      sumChanT tmpl sel * sumChanT tmpl sel / ((maskedIdx tmpl).length : ℚ)) /
    ((maskedIdx tmpl).length : ℚ)

open Classical in
/-- Per-channel template standard deviation (`stdTR` etc.). -/
noncomputable def stdTC (tmpl : Img) (sel : Pix → ℕ) : ℝ :=
  Real.sqrt (varTC tmpl sel)

/-- The per-channel frame plane (`fR`/`fG`/`fB`): zero outside the image and
at fully transparent pixels, else the channel value. -/
def chanF (frame : Img) (sel : Pix → ℕ) (idx : ℕ) : ℚ :=
  if idx < frame.W * frame.H then
    (if (frame.px (idx % frame.W) (idx / frame.W)).a = 0 then 0
     else (sel (frame.px (idx % frame.W) (idx / frame.W)) : ℚ))
  else 0

/-- Per-channel window sum over the masked template slots (`sumFR` etc.). -/
def rgbWinSum (frame tmpl : Img) (sel : Pix → ℕ) (x y : ℕ) : ℚ :=
  ((maskedIdx tmpl).map fun off =>
    chanF frame sel ((y + off / tmpl.W) * frame.W + (x + off % tmpl.W))).sum

/-- Per-channel window square sum (`sumFR2` etc.). -/
def rgbWinSum2 (frame tmpl : Img) (sel : Pix → ℕ) (x y : ℕ) : ℚ :=
  ((maskedIdx tmpl).map fun off =>
    chanF frame sel ((y + off / tmpl.W) * frame.W + (x + off % tmpl.W)) *
      chanF frame sel ((y + off / tmpl.W) * frame.W + (x + off % tmpl.W))).sum

/-- Per-channel window/template dot product (`sumFTR` etc.). -/
def rgbWinSumFT (frame tmpl : Img) (sel : Pix → ℕ) (x y : ℕ) : ℚ :=
  ((maskedIdx tmpl).map fun off =>
    chanF frame sel ((y + off / tmpl.W) * frame.W + (x + off % tmpl.W)) *
      chanT tmpl sel off).sum

open Classical in
/-- The per-window body of the legacy RGB scoring loop: per-channel means
and variances over the masked count, the `varF* <= 1e-9` and `d* <= 0`
`continue` guards, and the three-channel averaged score. -/
noncomputable def rgbEvalWindow (frame tmpl : Img) (x y : ℕ) : Option ℝ :=
  let n : ℚ := ((maskedIdx tmpl).length : ℚ)
  let varF : (Pix → ℕ) → ℚ := fun sel =>
    (rgbWinSum2 frame tmpl sel x y -
        rgbWinSum frame tmpl sel x y * rgbWinSum frame tmpl sel x y / n) / n
  if varF Pix.r ≤ (1e-9 : ℚ) ∨ varF Pix.g ≤ (1e-9 : ℚ) ∨ varF Pix.b ≤ (1e-9 : ℚ) then
    none
  else
    let numer : (Pix → ℕ) → ℝ := fun sel =>
      (rgbWinSumFT frame tmpl sel x y : ℝ) -
        (n : ℝ) * ((rgbWinSum frame tmpl sel x y / n : ℚ) : ℝ) * (meanTC tmpl sel : ℝ)
    let denom : (Pix → ℕ) → ℝ := fun sel =>
      (n : ℝ) * Real.sqrt (varF sel) * stdTC tmpl sel
    if denom Pix.r ≤ 0 ∨ denom Pix.g ≤ 0 ∨ denom Pix.b ≤ 0 then none
    else
      some ((numer Pix.r / denom Pix.r + numer Pix.g / denom Pix.g +
        numer Pix.b / denom Pix.b) / 3)

/-- The constant-template shortcut scan of the RGB path: skip transparent
frame pixels, accept the first whose red channel is within `1e-9` of the
constant template red value. -/
def rgbConstScan (frame : Img) (refR : ℚ) : List (ℕ × ℕ) → NCCResult
  | [] => { X := 0, Y := 0, Score := -1, Found := false }
  | (y, x) :: rest =>
      if (frame.px x y).a = 0 then rgbConstScan frame refR rest
      else if |((frame.px x y).r : ℚ) - refR| < (1e-9 : ℚ) then
        { X := x, Y := y, Score := 1, Found := true }
      else rgbConstScan frame refR rest

open Classical in
/-- matchTemplateNCCRBG of the legacy `src/capture/ncc.go`: masked
per-channel statistics, the all-channels-constant equality shortcut on the
red channel, the coarse scan and optional refinement rectangle, and the
threshold flag on the averaged best score. -/
noncomputable def matchTemplateNCCRBG (frame tmpl : Img)
    (opts : NCCOptionsL) : NCCResult :=
  let W := frame.W
  let H := frame.H
  let w := tmpl.W
  let h := tmpl.H
  if (maskedIdx tmpl).length = 0 then { X := 0, Y := 0, Score := -1, Found := false }
  else if varTC tmpl Pix.r ≤ (1e-9 : ℚ) ∧ varTC tmpl Pix.g ≤ (1e-9 : ℚ) ∧
      varTC tmpl Pix.b ≤ (1e-9 : ℚ) then
    rgbConstScan frame (chanT tmpl Pix.r ((maskedIdx tmpl).headD 0))
      (scanPts W H w h opts.Stride)
  else
    let best := scanBest (fun x y => rgbEvalWindow frame tmpl x y)
      (scanPts W H w h opts.Stride) (-1, 0, 0)
    let best2 :=
      if opts.Refine = true ∧ 1 < opts.Stride then
        scanBest (fun x y => rgbEvalWindow frame tmpl x y)
          (rectPts (best.2.1 - opts.Stride) (min (W - w) (best.2.1 + opts.Stride))
            (best.2.2 - opts.Stride) (min (H - h) (best.2.2 + opts.Stride))) best
      else best
    { X := best2.2.1
      Y := best2.2.2
      Score := best2.1
      Found := if (opts.Threshold : ℝ) ≤ best2.1 then true else false }

open Classical in
/-- MatchTemplateNCC of the legacy `src/capture/ncc.go`: Threshold/Stride
defaulting, nil and size guards, then the dispatch — the RGB path when
`UseRGB` is set, the grayscale integral path for fully opaque templates,
and the RGB path as the masked fallback. -/
noncomputable def MatchTemplateNCC (frame tmpl : Option Img)
    (opts0 : NCCOptionsL) : NCCResult :=
  let opts : NCCOptionsL :=
    { opts0 with
        Threshold := if opts0.Threshold ≤ 0 then 0.80 else opts0.Threshold
        Stride := if opts0.Stride = 0 then 1 else opts0.Stride }
  match frame, tmpl with
  | some fr, some tm =>
      if tm.W = 0 ∨ tm.H = 0 ∨ fr.W < tm.W ∨ fr.H < tm.H then
        { X := 0, Y := 0, Score := -1, Found := false }
      else if opts.UseRGB = true then matchTemplateNCCRBG fr tm opts
      else if isTemplateFullyOpaque tm = true then
        matchTemplateNCCGrayIntegral fr tm opts (buildGrayPrecomp fr)
      else matchTemplateNCCRBG fr tm opts
  | _, _ => { X := 0, Y := 0, Score := -1, Found := false }

open Classical in
/-- DetectTemplateDetailed of `src/domain/capture/detect.go` with the
template cache threaded (`none` is the error return for nil inputs; the Go
`Validate` never fails).  Every option forwarded comes from the validated
config — the domain `NCCOptions` has no `UseRGB` field, so `cfg.UseRGB` is
never read. -/
noncomputable def DetectTemplateDetailed (frame tmpl : Option Img)
    (cfg : Option Config) (c : TmplCache) :
    Option MultiScaleResult × TmplCache :=
  match frame, tmpl with
  | some fr, some tm =>
      let lcl := match cfg with
        | none => DefaultConfig
        | some cf => cf
      let v := lcl.Validate
      let r := MultiScaleMatchParallel (some fr) (some tm)
        { Scales := []
          NCC :=
            { Threshold := v.Threshold
              Stride := v.Stride.toNat
              Refine := v.Refine
              ReturnBestEven := v.ReturnBestEven }
          StopOnScore := v.StopOnScore
          MinScale := v.MinScale
          MaxScale := v.MaxScale
          ScaleStep := v.ScaleStep } c
      (some r.1, r.2)
  | _, _ => (none, c)

/-- A 1x1 frame whose single pixel is pure red (`r = 100`): luma 21.26. -/
def frame1px : Img := ⟨1, 1, fun _ _ => ⟨100, 0, 0, 65535⟩⟩

/-- A 1x1 template whose single pixel is the neutral grey `(100,100,100)`:
luma 100, red channel 100. -/
def tmpl1px : Img := ⟨1, 1, fun _ _ => pixVal 100⟩

/-- A config with `UseRGB` enabled and all numeric fields already inside the
validation clamps (`Validate` is the identity on it). -/
def cfgC3 : Config :=
  { Debug := false
    MinScale := 1
    MaxScale := 2
    ScaleStep := 1
    Threshold := 0.8
    Stride := 1
    Refine := false
    UseRGB := true
    StopOnScore := 0.9
    ReturnBestEven := false
    SelectionX := 0
    SelectionY := 0
    SelectionW := 0
    SelectionH := 0
    ROISizePx := 80
    MaxCastDurationSeconds := 16
    CooldownSeconds := 7 }

/-- The legacy options matching `cfgC3`: threshold 0.8, stride 1, RGB on. -/
def lOptsC3 : NCCOptionsL := ⟨0.8, 1, false, false, true⟩

/-- The multi-scale options `DetectTemplateDetailed` builds from `cfgC3`. -/
def msOptsC3 : MultiScaleOptions := ⟨[], optsPlain, 0.9, 1, 2, 1⟩

/-- The same options after scale-list generation. -/
def msOptsC3x : MultiScaleOptions := ⟨[1, 2], optsPlain, 0.9, 1, 2, 1⟩

/-- Cache-hit equation of `getTemplatePrecomp`. -/
theorem getTemplatePrecomp_hit (c : TmplCache) (t : Img) (pc : TemplatePrecomp)
    (hW : t.W ≠ 0) (hH : t.H ≠ 0) (h : c (t.W, t.H) = some pc) :
    getTemplatePrecomp c t = (some pc, c) := by
  unfold getTemplatePrecomp
  rw [if_neg (by simp [hW, hH])]
  rw [h]

/-- Entries of the cache survive every `getTemplatePrecomp` call. -/
theorem getTemplatePrecomp_preserves (c : TmplCache) (t : Img)
    (k : ℕ × ℕ) (pc : TemplatePrecomp) (h : c k = some pc) :
    (getTemplatePrecomp c t).2 k = some pc := by
  unfold getTemplatePrecomp
  by_cases h0 : t.W = 0 ∨ t.H = 0
  · rw [if_pos h0]
    exact h
  · rw [if_neg h0]
    cases hc : c (t.W, t.H) with
    | some pc' => exact h
    | none =>
        simp only
        by_cases hk : k = (t.W, t.H)
        · rw [hk] at h
          rw [h] at hc
          cases hc
        · simp [hk, h]

lemma integralTab_eq (g : ℕ → ℕ → ℚ) (x y : ℕ) :
    integralTab g x y = prefixSum2 g (x + 1) (y + 1) := by
  induction y with
  | zero =>
      simp [integralTab, rowSum, prefixSum2]
  | succ y ih =>
      rw [integralTab, ih]
      simp [prefixSum2, Finset.sum_range_succ, rowSum]

lemma tabAt_pred (g : ℕ → ℕ → ℚ) (a b : ℕ) :
    tabAt (integralTab g) ((a : ℤ) - 1) ((b : ℤ) - 1) = prefixSum2 g a b := by
  cases a with
  | zero => simp [tabAt, prefixSum2]
  | succ a =>
      cases b with
      | zero => simp [tabAt, prefixSum2]
      | succ b =>
          have ha : ((a : ℤ) + 1 - 1) = (a : ℤ) := by ring
          have hb : ((b : ℤ) + 1 - 1) = (b : ℤ) := by ring
          simp only [tabAt, Nat.cast_succ, ha, hb]
          rw [if_neg (by omega)]
          simp [integralTab_eq]

lemma prefixSum2_add_right (g : ℕ → ℕ → ℚ) (a w b : ℕ) :
    prefixSum2 g (a + w) b =
      prefixSum2 g a b + ∑ dy ∈ Finset.range b, ∑ dx ∈ Finset.range w, g (a + dx) dy := by
  unfold prefixSum2
  rw [← Finset.sum_add_distrib]
  refine Finset.sum_congr rfl fun dy _ => ?_
  exact Finset.sum_range_add (fun dx => g dx dy) a w

/-- The `integralSum` window read recovers the plain double sum over the
inclusive rectangle `[x, x+w-1] × [y, y+h-1]`. -/
lemma integralSum_window (g : ℕ → ℕ → ℚ) (x y w h : ℕ) (hw : 0 < w) (hh : 0 < h) :
    integralSum (integralTab g) (x : ℤ) (y : ℤ) ((x : ℤ) + w - 1) ((y : ℤ) + h - 1) =
      ∑ dy ∈ Finset.range h, ∑ dx ∈ Finset.range w, g (x + dx) (y + dy) := by
  have hx1 : ((x : ℤ) + w - 1) = ((x + w : ℕ) : ℤ) - 1 := by
    push_cast
    ring
  have hy1 : ((y : ℤ) + h - 1) = ((y + h : ℕ) : ℤ) - 1 := by
    push_cast
    ring
  unfold integralSum
  rw [if_neg (by omega)]
  rw [hx1, hy1]
  have e1 : tabAt (integralTab g) (((x + w : ℕ) : ℤ) - 1) (((y + h : ℕ) : ℤ) - 1) =
      prefixSum2 g (x + w) (y + h) := tabAt_pred g (x + w) (y + h)
  have e2 : tabAt (integralTab g) ((x : ℤ) - 1) (((y + h : ℕ) : ℤ) - 1) =
      prefixSum2 g x (y + h) := tabAt_pred g x (y + h)
  have e3 : tabAt (integralTab g) (((x + w : ℕ) : ℤ) - 1) ((y : ℤ) - 1) =
      prefixSum2 g (x + w) y := tabAt_pred g (x + w) y
  have e4 : tabAt (integralTab g) ((x : ℤ) - 1) ((y : ℤ) - 1) =
      prefixSum2 g x y := tabAt_pred g x y
  push_cast at e1 e2 e3 e4 ⊢
  rw [e1, e2, e3, e4]
  rw [prefixSum2_add_right g x w (y + h), prefixSum2_add_right g x w y]
  have hsplit : ∑ dy ∈ Finset.range (y + h), ∑ dx ∈ Finset.range w, g (x + dx) dy =
      (∑ dy ∈ Finset.range y, ∑ dx ∈ Finset.range w, g (x + dx) dy) +
        ∑ dy ∈ Finset.range h, ∑ dx ∈ Finset.range w, g (x + dx) (y + dy) :=
    Finset.sum_range_add (fun dy => ∑ dx ∈ Finset.range w, g (x + dx) dy) y h
  rw [hsplit]
  ring

/-- Row-major linear index to double sum: `i / w` is the row, `i % w` the
column. -/
lemma sum_range_grid (w h : ℕ) (hw : 0 < w) (G : ℕ → ℕ → ℚ) :
    ∑ i ∈ Finset.range (w * h), G (i / w) (i % w) =
      ∑ dy ∈ Finset.range h, ∑ dx ∈ Finset.range w, G dy dx := by
  induction h with
  | zero => simp
  | succ h ih =>
      have hmul : w * (h + 1) = w * h + w := by ring
      rw [hmul, Finset.sum_range_add, ih, Finset.sum_range_succ]
      congr 1
      refine Finset.sum_congr rfl fun j hj => ?_
      have hj' : j < w := Finset.mem_range.1 hj
      have hdiv : (w * h + j) / w = h := by
        rw [Nat.mul_add_div hw]
        simp [Nat.div_eq_of_lt hj']
      have hmod : (w * h + j) % w = j := by
        rw [Nat.mul_add_mod]
        exact Nat.mod_eq_of_lt hj'
      rw [hdiv, hmod]

lemma buildTemplatePrecomp_consistent (tmpl : Img) :
    (buildTemplatePrecomp tmpl).consistent := by
  refine ⟨rfl, rfl, rfl, rfl⟩

/-- Variance is the mean of squared deviations with the very `n` used for the
mean: `n * ((s2 - s*s/n)/n) = ∑ (f i - s/n)^2`. -/
lemma nvar_eq_sum_sq (n : ℕ) (hn : 0 < n) (f : ℕ → ℚ) :
    ((n : ℚ)) * ((((∑ i ∈ Finset.range n, f i * f i) -
        (∑ i ∈ Finset.range n, f i) * (∑ i ∈ Finset.range n, f i) / n) / n)) =
      ∑ i ∈ Finset.range n, (f i - (∑ i ∈ Finset.range n, f i) / n) ^ 2 := by
  have hn' : ((n : ℚ)) ≠ 0 := by exact_mod_cast Nat.pos_iff_ne_zero.1 hn
  set s := ∑ i ∈ Finset.range n, f i with hs
  have expand : ∀ i, (f i - s / n) ^ 2 =
      f i * f i - 2 * (s / n) * f i + (s / n) ^ 2 := by
    intro i
    ring
  rw [Finset.sum_congr rfl fun i _ => expand i]
  rw [Finset.sum_add_distrib, Finset.sum_sub_distrib, ← Finset.mul_sum, ← hs]
  rw [Finset.sum_const, Finset.card_range, nsmul_eq_mul]
  field_simp
  ring

/-- The NCC numerator is the sum of products of deviations. -/
lemma numer_eq_sum_dev (n : ℕ) (hn : 0 < n) (f t : ℕ → ℚ) :
    (∑ i ∈ Finset.range n, f i * t i) -
        (n : ℚ) * ((∑ i ∈ Finset.range n, f i) / n) * ((∑ i ∈ Finset.range n, t i) / n) =
      ∑ i ∈ Finset.range n,
        (f i - (∑ i ∈ Finset.range n, f i) / n) * (t i - (∑ i ∈ Finset.range n, t i) / n) := by
  have hn' : ((n : ℚ)) ≠ 0 := by exact_mod_cast Nat.pos_iff_ne_zero.1 hn
  set sF := ∑ i ∈ Finset.range n, f i with hsF
  set sT := ∑ i ∈ Finset.range n, t i with hsT
  have expand : ∀ i, (f i - sF / n) * (t i - sT / n) =
      f i * t i - (sF / n) * t i - (sT / n) * f i + (sF / n) * (sT / n) := by
    intro i
    ring
  rw [Finset.sum_congr rfl fun i _ => expand i]
  rw [Finset.sum_add_distrib, Finset.sum_sub_distrib, Finset.sum_sub_distrib,
    ← Finset.mul_sum, ← Finset.mul_sum, ← hsF, ← hsT]
  rw [Finset.sum_const, Finset.card_range, nsmul_eq_mul]
  field_simp
  ring

/-- Cauchy-Schwarz for the NCC statistics: the squared numerator is bounded
by the product of the `n*variance` terms. -/
lemma numer_sq_le (n : ℕ) (hn : 0 < n) (f t : ℕ → ℚ) :
    ((∑ i ∈ Finset.range n, f i * t i) -
        (n : ℚ) * ((∑ i ∈ Finset.range n, f i) / n) * ((∑ i ∈ Finset.range n, t i) / n)) ^ 2 ≤
      ((n : ℚ) * (((∑ i ∈ Finset.range n, f i * f i) -
          (∑ i ∈ Finset.range n, f i) * (∑ i ∈ Finset.range n, f i) / n) / n)) *
        ((n : ℚ) * (((∑ i ∈ Finset.range n, t i * t i) -
          (∑ i ∈ Finset.range n, t i) * (∑ i ∈ Finset.range n, t i) / n) / n)) := by
  rw [numer_eq_sum_dev n hn f t, nvar_eq_sum_sq n hn f, nvar_eq_sum_sq n hn t]
  exact Finset.sum_mul_sq_le_sq_mul_sq (Finset.range n)
    (fun i => f i - (∑ j ∈ Finset.range n, f j) / n)
    (fun i => t i - (∑ j ∈ Finset.range n, t j) / n)

lemma sq_div_range (a b : ℝ) (hb : 0 < b) (hab : a ^ 2 ≤ b ^ 2) :
    -1 ≤ a / b ∧ a / b ≤ 1 := by
  have habs : |a| ≤ b := by
    have h2 := Real.sqrt_le_sqrt hab
    rwa [Real.sqrt_sq_eq_abs, Real.sqrt_sq hb.le] at h2
  have h1 := abs_le.1 habs
  constructor
  · rw [le_div_iff₀ hb]
    linarith [h1.1]
  · rw [div_le_one hb]
    exact h1.2

/-- The window sum read through the `integral` table is the plain sum of the
window's grayscale values in template slot order. -/
lemma integral_window_sum (pre : GrayPrecomp) (w h x y : ℕ) (hw : 0 < w) (hh : 0 < h) :
    windowSumF pre w h x y =
      ∑ i ∈ Finset.range (w * h), pre.gray ((y + i / w) * pre.W + (x + i % w)) := by
  rw [windowSumF, GrayPrecomp.integral, integralSum_window pre.g2 x y w h hw hh,
    ← sum_range_grid w h hw fun dy dx => pre.g2 (x + dx) (y + dy)]
  rfl

/-- The squared-window sum read through the `integralSq` table. -/
lemma integralSq_window_sum (pre : GrayPrecomp) (w h x y : ℕ) (hw : 0 < w) (hh : 0 < h) :
    windowSumF2 pre w h x y =
      ∑ i ∈ Finset.range (w * h),
        pre.gray ((y + i / w) * pre.W + (x + i % w)) *
          pre.gray ((y + i / w) * pre.W + (x + i % w)) := by
  rw [windowSumF2, GrayPrecomp.integralSq,
    integralSum_window (fun a b => pre.g2 a b * pre.g2 a b) x y w h hw hh,
    ← sum_range_grid w h hw fun dy dx => pre.g2 (x + dx) (y + dy) * pre.g2 (x + dx) (y + dy)]
  rfl

/-- The window variance relates to the window sums exactly as the code forms
it, and is bounded by Cauchy-Schwarz against a consistent template precomp. -/
lemma evalWindow_range (pre : GrayPrecomp) (pc : TemplatePrecomp)
    (hc : pc.consistent) (hw : 0 < pc.W) (hh : 0 < pc.H) (x y : ℕ) (sc : ℝ)
    (heval : evalWindow pre pc x y = some sc) : -1 ≤ sc ∧ sc ≤ 1 := by
  classical
  obtain ⟨hc1, hc2, hc3, hc4⟩ := hc
  simp only [evalWindow] at heval
  by_cases hskip : windowVarF pre pc.W pc.H x y ≤ (1e-9 : ℚ)
  · rw [if_pos hskip] at heval
    cases heval
  rw [if_neg hskip] at heval
  set nq : ℚ := ((pc.W * pc.H : ℕ) : ℚ) with hnq
  set sumF : ℚ := windowSumF pre pc.W pc.H x y with hsumF
  set varF : ℚ := windowVarF pre pc.W pc.H x y with hvarF
  set sumFT : ℚ := windowSumFT pre pc x y with hsumFT
  set numer : ℝ := (sumFT : ℝ) - (nq : ℝ) * ((sumF / nq : ℚ) : ℝ) * ((pc.meanT : ℚ) : ℝ)
    with hnumer
  set denom : ℝ := (nq : ℝ) * Real.sqrt (varF : ℚ) * pc.stdT with hdenom
  by_cases hdz : denom ≤ 0
  · rw [if_pos hdz] at heval
    cases heval
  rw [if_neg hdz] at heval
  have hsc : sc = numer / denom := (Option.some.inj heval).symm
  have hdpos : 0 < denom := lt_of_not_le hdz
  have hn : 0 < pc.W * pc.H := Nat.mul_pos hw hh
  have hvarTpos : 0 < pc.varT := by
    by_contra hle
    have hz : pc.stdT = 0 := by
      rw [TemplatePrecomp.stdT, if_neg hle]
    rw [hdenom, hz, mul_zero] at hdpos
    exact lt_irrefl 0 hdpos
  have hstdT : pc.stdT = Real.sqrt (pc.varT : ℚ) := by
    rw [TemplatePrecomp.stdT, if_pos hvarTpos]
  have hvarFpos : (0 : ℚ) < varF := lt_of_le_of_lt (by norm_num) (lt_of_not_le hskip)
  set f : ℕ → ℚ := fun i => pre.gray ((y + i / pc.W) * pre.W + (x + i % pc.W)) with hf
  have hsF : sumF = ∑ i ∈ Finset.range (pc.W * pc.H), f i := by
    rw [hsumF, integral_window_sum pre pc.W pc.H x y hw hh]
  have hsF2 : windowSumF2 pre pc.W pc.H x y =
      ∑ i ∈ Finset.range (pc.W * pc.H), f i * f i := by
    rw [integralSq_window_sum pre pc.W pc.H x y hw hh]
  have hsFT : sumFT = ∑ i ∈ Finset.range (pc.W * pc.H), f i * pc.gray i := rfl
  have hcs := numer_sq_le (pc.W * pc.H) hn f pc.gray
  rw [← hsF, ← hsF2, ← hc1, ← hc2] at hcs
  have hnumerQ : numer = ((sumFT - nq * (sumF / nq) * pc.meanT : ℚ) : ℝ) := by
    rw [hnumer]
    push_cast
    ring
  have hvarF_eq : varF = (windowSumF2 pre pc.W pc.H x y - sumF * sumF / nq) / nq := rfl
  have hcsQ : (sumFT - nq * (sumF / nq) * pc.meanT : ℚ) ^ 2 ≤
      (nq * varF) * (nq * pc.varT) := by
    rw [hsFT, hc3, hvarF_eq, hc4]
    exact hcs
  have hdenom_sq : denom ^ 2 = (((nq * varF) * (nq * pc.varT) : ℚ) : ℝ) := by
    rw [hdenom, hstdT]
    have e1 : (Real.sqrt (varF : ℚ)) ^ 2 = ((varF : ℚ) : ℝ) :=
      Real.sq_sqrt (by exact_mod_cast hvarFpos.le)
    have e2 : (Real.sqrt ((pc.varT : ℚ) : ℝ)) ^ 2 = ((pc.varT : ℚ) : ℝ) :=
      Real.sq_sqrt (by exact_mod_cast hvarTpos.le)
    push_cast
    rw [mul_pow, mul_pow, e1, e2]
    ring
  have hnumer_sq : numer ^ 2 ≤ denom ^ 2 := by
    rw [hnumerQ, hdenom_sq]
    exact_mod_cast hcsQ
  rw [hsc]
  exact sq_div_range numer denom hdpos hnumer_sq

/-- The equality-scan result is always score `1` with `Found` or the
sentinel `-1` without. -/
lemma constScan_score (pre : GrayPrecomp) (pc : TemplatePrecomp) (ref : ℚ) :
    ∀ pts : List (ℕ × ℕ),
      (constScan pre pc ref pts).Score = 1 ∧ (constScan pre pc ref pts).Found = true ∨
        (constScan pre pc ref pts).Score = -1 ∧ (constScan pre pc ref pts).Found = false := by
  intro pts
  induction pts with
  | nil => right; exact ⟨rfl, rfl⟩
  | cons p rest ih =>
      obtain ⟨py, px⟩ := p
      rw [constScan]
      by_cases h1 : (1e-9 : ℚ) < |pre.gray ((py + pc.H / 2) * pre.W + (px + pc.W / 2)) - ref|
      · rw [if_pos h1]
        exact ih
      · rw [if_neg h1]
        by_cases h2 : constWindowOk pre pc ref px py
        · rw [if_pos h2]
          left
          exact ⟨rfl, rfl⟩
        · rw [if_neg h2]
          exact ih

/-- The best-score fold keeps the accumulator inside `[-1, 1]` whenever every
accepted window score is. -/
lemma scanBest_range (f : ℕ → ℕ → Option ℝ)
    (hf : ∀ x y sc, f x y = some sc → -1 ≤ sc ∧ sc ≤ 1) :
    ∀ (pts : List (ℕ × ℕ)) (b : ℝ × ℕ × ℕ), -1 ≤ b.1 ∧ b.1 ≤ 1 →
      -1 ≤ (scanBest f pts b).1 ∧ (scanBest f pts b).1 ≤ 1 := by
  intro pts
  induction pts with
  | nil => intro b hb; exact hb
  | cons p rest ih =>
      obtain ⟨py, px⟩ := p
      intro b hb
      rw [scanBest]
      rcases heq : f px py with _ | sc
      · simp only [heq]
        exact ih b hb
      · simp only [heq]
        by_cases hlt : b.1 < sc
        · rw [if_pos hlt]
          exact ih _ (hf px py sc heq)
        · rw [if_neg hlt]
          exact ih b hb

/-- Both scan passes of the normal path keep the best score inside `[-1, 1]`. -/
lemma normalScanBest_range (pre : GrayPrecomp) (pc : TemplatePrecomp)
    (opts : NCCOptions) (W H : ℕ) (hc : pc.consistent) (hw : 0 < pc.W)
    (hh : 0 < pc.H) :
    -1 ≤ (normalScanBest pre pc opts W H).1 ∧ (normalScanBest pre pc opts W H).1 ≤ 1 := by
  classical
  have hf : ∀ x y sc, (fun x y => evalWindow pre pc x y) x y = some sc →
      -1 ≤ sc ∧ sc ≤ 1 := fun x y sc h => evalWindow_range pre pc hc hw hh x y sc h
  simp only [normalScanBest]
  by_cases href : opts.Refine = true ∧ 1 < (if opts.Stride = 0 then 1 else opts.Stride)
  · rw [if_pos href]
    exact scanBest_range _ hf _ _ (scanBest_range _ hf _ _ (by norm_num))
  · rw [if_neg href]
    exact scanBest_range _ hf _ _ (by norm_num)

/-- C6: for every frame/template pair the score returned by the NCC matcher
lies in `[-1, 1]` — accepted windows are bounded by Cauchy-Schwarz, the
equality-scan and guard branches return `1` or the sentinel `-1`, both inside
the interval. -/
theorem C6_score_range (frame tmpl : Img) (opts : NCCOptions) :
    -1 ≤ (matchTemplateNCCGrayIntegralPre frame (buildTemplatePrecomp tmpl) opts
        (buildGrayPrecomp frame)).Score ∧
      (matchTemplateNCCGrayIntegralPre frame (buildTemplatePrecomp tmpl) opts
        (buildGrayPrecomp frame)).Score ≤ 1 := by
  classical
  set pc := buildTemplatePrecomp tmpl with hpc
  set pre := buildGrayPrecomp frame with hpre
  simp only [matchTemplateNCCGrayIntegralPre]
  split
  · norm_num
  · next hguard =>
      have hw : 0 < pc.W := by omega
      have hh : 0 < pc.H := by omega
      split
      · rcases constScan_score pre pc (pc.gray 0)
            (scanPts frame.W frame.H pc.W pc.H opts.Stride) with ⟨h1, _⟩ | ⟨h1, _⟩ <;>
          rw [h1] <;> norm_num
      · have hcons : pc.consistent := buildTemplatePrecomp_consistent tmpl
        exact normalScanBest_range pre pc opts frame.W frame.H hcons hw hh

/-- The centre pixel the equality scan probes first is one of the pixels the
full window check visits, so the centre shortcut never changes the outcome:
`constScan` returns the first window (in scan order) whose pixels all match,
and the sentinel otherwise. -/
lemma constScan_find (pre : GrayPrecomp) (pc : TemplatePrecomp) (ref : ℚ)
    (hw : 0 < pc.W) (hh : 0 < pc.H) (pts : List (ℕ × ℕ)) :
    constScan pre pc ref pts =
      match pts.find? (fun p => constWindowOk pre pc ref p.2 p.1) with
      | some p => { X := p.2, Y := p.1, Score := 1, Found := true }
      | none => { X := 0, Y := 0, Score := -1, Found := false } := by
  induction pts with
  | nil => rfl
  | cons p rest ih =>
      obtain ⟨py, px⟩ := p
      rw [constScan]
      by_cases hok : constWindowOk pre pc ref px py
      · have hcenter : ¬ ((1e-9 : ℚ) < |pre.gray ((py + pc.H / 2) * pre.W + (px + pc.W / 2)) - ref|) := by
          have hi0 : pc.H / 2 * pc.W + pc.W / 2 < pc.W * pc.H := by
            have hh2 : pc.H / 2 < pc.H := Nat.div_lt_self hh (by norm_num)
            have hw2 : pc.W / 2 < pc.W := Nat.div_lt_self hw (by norm_num)
            calc pc.H / 2 * pc.W + pc.W / 2 < pc.H / 2 * pc.W + pc.W := by omega
              _ = (pc.H / 2 + 1) * pc.W := by ring
              _ ≤ pc.H * pc.W := Nat.mul_le_mul_right pc.W (by omega)
              _ = pc.W * pc.H := Nat.mul_comm pc.H pc.W
          have hall := (List.all_eq_true.1 hok) (pc.H / 2 * pc.W + pc.W / 2)
            (List.mem_range.2 hi0)
          have hw2 : pc.W / 2 < pc.W := Nat.div_lt_self hw (by norm_num)
          have hdiv : (pc.H / 2 * pc.W + pc.W / 2) / pc.W = pc.H / 2 := by
            rw [Nat.mul_comm (pc.H / 2) pc.W, Nat.mul_add_div hw,
              Nat.div_eq_of_lt hw2, Nat.add_zero]
          have hmod : (pc.H / 2 * pc.W + pc.W / 2) % pc.W = pc.W / 2 := by
            rw [Nat.mul_comm (pc.H / 2) pc.W, Nat.mul_add_mod]
            exact Nat.mod_eq_of_lt hw2
          rw [hdiv, hmod] at hall
          simpa using hall
        rw [if_neg hcenter, if_pos hok]
        have hfind : List.find? (fun p => constWindowOk pre pc ref p.2 p.1) ((py, px) :: rest) =
            some (py, px) := by
          rw [List.find?_cons_of_pos]
          simpa using hok
        rw [hfind]
      · have hfind : List.find? (fun p => constWindowOk pre pc ref p.2 p.1) ((py, px) :: rest) =
            List.find? (fun p => constWindowOk pre pc ref p.2 p.1) rest := by
          rw [List.find?_cons_of_neg]
          simpa using hok
        rw [hfind, ← ih]
        by_cases hcenter : (1e-9 : ℚ) < |pre.gray ((py + pc.H / 2) * pre.W + (px + pc.W / 2)) - ref|
        · rw [if_pos hcenter]
        · rw [if_neg hcenter, if_neg hok]

/-- C7: when the template's precomputed standard deviation is at most `1e-9`
the matcher runs the exact-equality scan — the result is exactly `constScan`,
found iff some candidate window matches the constant everywhere (within the
`1e-9` tolerance), with score 1 at the first such window in scan order and
the sentinel `-1`/not-found otherwise — and the normal scoring path that
divides by the template standard deviation is not executed. -/
theorem C7_constant_template (frame : Img) (pc : TemplatePrecomp)
    (opts : NCCOptions) (pre : GrayPrecomp)
    (hok : ¬(pc.W = 0 ∨ pc.H = 0 ∨ frame.W < pc.W ∨ frame.H < pc.H))
    (hstd : pc.stdT ≤ ((1e-9 : ℚ) : ℝ)) :
    matchTemplateNCCGrayIntegralPre frame pc opts pre =
        constScan pre pc (pc.gray 0) (scanPts frame.W frame.H pc.W pc.H opts.Stride) ∧
      ((matchTemplateNCCGrayIntegralPre frame pc opts pre).Found = true ↔
        ∃ p ∈ scanPts frame.W frame.H pc.W pc.H opts.Stride,
          constWindowOk pre pc (pc.gray 0) p.2 p.1 = true) ∧
      (∀ p₀, (scanPts frame.W frame.H pc.W pc.H opts.Stride).find?
            (fun p => constWindowOk pre pc (pc.gray 0) p.2 p.1) = some p₀ →
        matchTemplateNCCGrayIntegralPre frame pc opts pre =
          { X := p₀.2, Y := p₀.1, Score := 1, Found := true }) ∧
      ((matchTemplateNCCGrayIntegralPre frame pc opts pre).Found = false →
        (matchTemplateNCCGrayIntegralPre frame pc opts pre).Score = -1) := by
  classical
  have hw : 0 < pc.W := by omega
  have hh : 0 < pc.H := by omega
  have hbranch : matchTemplateNCCGrayIntegralPre frame pc opts pre =
      constScan pre pc (pc.gray 0) (scanPts frame.W frame.H pc.W pc.H opts.Stride) := by
    simp only [matchTemplateNCCGrayIntegralPre]
    rw [if_neg hok, if_pos hstd]
  have hfind := constScan_find pre pc (pc.gray 0) hw hh
    (scanPts frame.W frame.H pc.W pc.H opts.Stride)
  refine ⟨hbranch, ?_, ?_, ?_⟩
  · rw [hbranch, hfind]
    cases hf : (scanPts frame.W frame.H pc.W pc.H opts.Stride).find?
        (fun p => constWindowOk pre pc (pc.gray 0) p.2 p.1) with
    | some p =>
        simp only [hf]
        constructor
        · intro _
          exact ⟨p, List.mem_of_find?_eq_some hf, by simpa using List.find?_some hf⟩
        · intro _
          trivial
    | none =>
        simp only [hf]
        constructor
        · intro hcontra
          cases hcontra
        · rintro ⟨p, hmem, hp⟩
          have := List.find?_eq_none.1 hf p hmem
          simp [hp] at this
  · intro p₀ hp₀
    rw [hbranch, hfind, hp₀]
  · intro hfound
    rw [hbranch, hfind]
    rw [hbranch, hfind] at hfound
    cases hf : (scanPts frame.W frame.H pc.W pc.H opts.Stride).find?
        (fun p => constWindowOk pre pc (pc.gray 0) p.2 p.1) with
    | some p =>
        rw [hf] at hfound
        simp at hfound
    | none => rfl

lemma tmplMask_gray (i : ℕ) : (buildTemplatePrecomp tmplMask).gray i = 0 := by
  simp only [buildTemplatePrecomp, tmplMask]
  split
  · split <;> simp [grayOfPix, pixBlack, pixMasked]
  · rfl

lemma frameBlack_gray (i : ℕ) : (buildGrayPrecomp frameBlack).gray i = 0 := by
  simp only [buildGrayPrecomp, frameBlack]
  split <;> simp [grayOfPix, pixBlack]

lemma frameAltered_gray1 : (buildGrayPrecomp frameAltered).gray 1 = 65535 := by
  simp only [buildGrayPrecomp, frameAltered]
  norm_num [grayOfPix, pixWhite]

lemma frameAltered_gray3 : (buildGrayPrecomp frameAltered).gray 3 = 0 := by
  simp only [buildGrayPrecomp, frameAltered]
  norm_num [grayOfPix, pixBlack]

lemma tmplMask_varT : (buildTemplatePrecomp tmplMask).varT = 0 := by
  obtain ⟨h1, h2, _, h4⟩ := buildTemplatePrecomp_consistent tmplMask
  rw [h4, h2, h1]
  simp [tmplMask_gray]

lemma tmplMask_stdT : (buildTemplatePrecomp tmplMask).stdT ≤ ((1e-9 : ℚ) : ℝ) := by
  rw [TemplatePrecomp.stdT, tmplMask_varT, if_neg (lt_irrefl 0)]
  positivity

/-- C7 witness: the all-black 2x2 template precomp has zero variance, hence
standard deviation `0 <= 1e-9`, and the matcher result is the equality scan. -/
theorem C7_witness :
    matchTemplateNCCGrayIntegralPre frameBlack (buildTemplatePrecomp tmplMask) optsPlain
        (buildGrayPrecomp frameBlack) =
      constScan (buildGrayPrecomp frameBlack) (buildTemplatePrecomp tmplMask)
        ((buildTemplatePrecomp tmplMask).gray 0)
        (scanPts frameBlack.W frameBlack.H (buildTemplatePrecomp tmplMask).W
          (buildTemplatePrecomp tmplMask).H optsPlain.Stride) :=
  (C7_constant_template frameBlack (buildTemplatePrecomp tmplMask) optsPlain
    (buildGrayPrecomp frameBlack) (by decide) tmplMask_stdT).1

/-- C1: evaluation of the matcher at the failing input of the masking claim.
The template masks `(1, 0)`; the two frames agree everywhere except under
that masked coordinate, yet the matcher returns score `1` (found) on the
black frame and the sentinel `-1` (not found) on the altered frame: frame
pixels under the masked region do change the returned score, because `n`
counts all `w*h` slots and the window statistics/equality scan read the
whole window. -/
theorem C1_mask_eval :
    (matchTemplateNCCGrayIntegralPre frameBlack (buildTemplatePrecomp tmplMask) optsPlain
        (buildGrayPrecomp frameBlack)).Score = 1 ∧
      (matchTemplateNCCGrayIntegralPre frameAltered (buildTemplatePrecomp tmplMask) optsPlain
        (buildGrayPrecomp frameAltered)).Score = -1 ∧
      (tmplMask.px 1 0).a = 0 ∧
      ∀ x y : ℕ, ¬(x = 1 ∧ y = 0) → frameAltered.px x y = frameBlack.px x y := by
  have hcenter1 : ¬ ((1e-9 : ℚ) <
      |(buildGrayPrecomp frameBlack).gray
          ((0 + (buildTemplatePrecomp tmplMask).H / 2) * (buildGrayPrecomp frameBlack).W +
            (0 + (buildTemplatePrecomp tmplMask).W / 2)) -
        (buildTemplatePrecomp tmplMask).gray 0|) := by
    rw [frameBlack_gray, tmplMask_gray]
    norm_num
  have hok1 : constWindowOk (buildGrayPrecomp frameBlack) (buildTemplatePrecomp tmplMask)
      ((buildTemplatePrecomp tmplMask).gray 0) 0 0 = true := by
    rw [constWindowOk, List.all_eq_true]
    intro i _
    rw [decide_eq_true_eq, frameBlack_gray, tmplMask_gray]
    norm_num
  have hcenter2 : ¬ ((1e-9 : ℚ) <
      |(buildGrayPrecomp frameAltered).gray
          ((0 + (buildTemplatePrecomp tmplMask).H / 2) * (buildGrayPrecomp frameAltered).W +
            (0 + (buildTemplatePrecomp tmplMask).W / 2)) -
        (buildTemplatePrecomp tmplMask).gray 0|) := by
    have hidx : (0 + (buildTemplatePrecomp tmplMask).H / 2) * (buildGrayPrecomp frameAltered).W +
        (0 + (buildTemplatePrecomp tmplMask).W / 2) = 3 := rfl
    rw [hidx, frameAltered_gray3, tmplMask_gray]
    norm_num
  have hok2 : ¬ (constWindowOk (buildGrayPrecomp frameAltered) (buildTemplatePrecomp tmplMask)
      ((buildTemplatePrecomp tmplMask).gray 0) 0 0 = true) := by
    rw [constWindowOk, List.all_eq_true]
    intro hall
    have h1 := hall 1 (by decide)
    rw [decide_eq_true_eq] at h1
    have hidx : (0 + 1 / (buildTemplatePrecomp tmplMask).W) * (buildGrayPrecomp frameAltered).W +
        (0 + 1 % (buildTemplatePrecomp tmplMask).W) = 1 := rfl
    rw [hidx, frameAltered_gray1, tmplMask_gray] at h1
    norm_num at h1
  have heval1 : constScan (buildGrayPrecomp frameBlack) (buildTemplatePrecomp tmplMask)
      ((buildTemplatePrecomp tmplMask).gray 0)
      (scanPts frameBlack.W frameBlack.H (buildTemplatePrecomp tmplMask).W
        (buildTemplatePrecomp tmplMask).H optsPlain.Stride) =
      { X := 0, Y := 0, Score := 1, Found := true } := by
    rw [show scanPts frameBlack.W frameBlack.H (buildTemplatePrecomp tmplMask).W
        (buildTemplatePrecomp tmplMask).H optsPlain.Stride = [(0, 0)] from by decide]
    rw [constScan, if_neg hcenter1, if_pos hok1]
  have heval2 : constScan (buildGrayPrecomp frameAltered) (buildTemplatePrecomp tmplMask)
      ((buildTemplatePrecomp tmplMask).gray 0)
      (scanPts frameAltered.W frameAltered.H (buildTemplatePrecomp tmplMask).W
        (buildTemplatePrecomp tmplMask).H optsPlain.Stride) =
      { X := 0, Y := 0, Score := -1, Found := false } := by
    rw [show scanPts frameAltered.W frameAltered.H (buildTemplatePrecomp tmplMask).W
        (buildTemplatePrecomp tmplMask).H optsPlain.Stride = [(0, 0)] from by decide]
    rw [constScan, if_neg hcenter2, if_neg hok2]
    rfl
  refine ⟨?_, ?_, rfl, ?_⟩
  · simp only [matchTemplateNCCGrayIntegralPre]
    rw [if_neg (by decide), if_pos tmplMask_stdT, heval1]
  · simp only [matchTemplateNCCGrayIntegralPre]
    rw [if_neg (by decide), if_pos tmplMask_stdT, heval2]
  · intro x y hxy
    simp [frameAltered, frameBlack, hxy]

/-- C10: the template precomputation cache is keyed only by `(width, height)`
— a hit returns the originally cached precomp whatever the new template's
pixels are, leaving the cache untouched, and no call ever removes or
replaces an existing entry. -/
theorem C10_cache_by_dim :
    (∀ (c : TmplCache) (t : Img) (pc : TemplatePrecomp),
        t.W ≠ 0 → t.H ≠ 0 → c (t.W, t.H) = some pc →
          getTemplatePrecomp c t = (some pc, c)) ∧
      ∀ (c : TmplCache) (t : Img) (k : ℕ × ℕ) (pc : TemplatePrecomp),
        c k = some pc → (getTemplatePrecomp c t).2 k = some pc :=
  ⟨getTemplatePrecomp_hit, getTemplatePrecomp_preserves⟩

/-- C10 witness: requesting the precomp of the masked black template returns
the cached white-template precomp — the new pixels are ignored — and the
cache is unchanged. -/
theorem C10_witness :
    getTemplatePrecomp cacheC10 tmplMask = (some (buildTemplatePrecomp tmplWhite), cacheC10) :=
  C10_cache_by_dim.1 cacheC10 tmplMask (buildTemplatePrecomp tmplWhite)
    (by decide) (by decide) rfl

lemma genLoop_zero (m st s : ℚ) : genLoop m st s 0 = [] := rfl

lemma genLoop_succ (m st s : ℚ) (r : ℕ) :
    genLoop m st s (r + 1) =
      if s ≤ m + (1e-9 : ℚ) then s :: genLoop m st (s + st) r else [] := rfl

lemma genLoop_length (m st : ℚ) : ∀ (r : ℕ) (s : ℚ), (genLoop m st s r).length ≤ r := by
  intro r
  induction r with
  | zero => intro s; simp [genLoop]
  | succ r ih =>
      intro s
      rw [genLoop_succ]
      by_cases hc : s ≤ m + (1e-9 : ℚ)
      · rw [if_pos hc]
        simpa using ih (s + st)
      · rw [if_neg hc]
        simp

lemma genLoop_get? (m st : ℚ) : ∀ (r : ℕ) (s : ℚ) (i : ℕ),
    i < (genLoop m st s r).length → (genLoop m st s r).get? i = some (s + i * st) := by
  intro r
  induction r with
  | zero => intro s i hi; simp [genLoop] at hi
  | succ r ih =>
      intro s i hi
      rw [genLoop_succ] at hi ⊢
      by_cases hc : s ≤ m + (1e-9 : ℚ)
      · rw [if_pos hc] at hi ⊢
        cases i with
        | zero => simp
        | succ i =>
            have hi' : i < (genLoop m st (s + st) r).length := by
              simpa using hi
            have hrec := ih (s + st) i hi'
            rw [List.get?_cons_succ, hrec]
            congr 1
            push_cast
            ring
      · rw [if_neg hc] at hi
        simp at hi

lemma genLoop_get (m st : ℚ) (r : ℕ) (s : ℚ) (i : ℕ) (hi : i < (genLoop m st s r).length) :
    (genLoop m st s r).get ⟨i, hi⟩ = s + i * st := by
  have h1 := genLoop_get? m st r s i hi
  rw [List.get?_eq_get hi] at h1
  exact Option.some.inj h1

lemma genLoop_mem_le (m st : ℚ) : ∀ (r : ℕ) (s : ℚ) (q : ℚ),
    q ∈ genLoop m st s r → q ≤ m + (1e-9 : ℚ) := by
  intro r
  induction r with
  | zero => intro s q hq; simp [genLoop] at hq
  | succ r ih =>
      intro s q hq
      rw [genLoop_succ] at hq
      by_cases hc : s ≤ m + (1e-9 : ℚ)
      · rw [if_pos hc] at hq
        rcases List.mem_cons.1 hq with h | h
        · rw [h]; exact hc
        · exact ih (s + st) q h
      · rw [if_neg hc] at hq
        simp at hq

lemma genLoop_mem_last (m st : ℚ) (hst : 0 ≤ st) :
    ∀ (k : ℕ) (s : ℚ), s + k * st ≤ m + (1e-9 : ℚ) →
      s + k * st ∈ genLoop m st s (k + 1) := by
  intro k
  induction k with
  | zero =>
      intro s hs
      rw [genLoop_succ]
      rw [if_pos (by simpa using hs)]
      simp
  | succ k ih =>
      intro s hs
      rw [genLoop_succ]
      have hsle : s ≤ m + (1e-9 : ℚ) := by
        have : (0 : ℚ) ≤ (k + 1 : ℕ) * st := mul_nonneg (by positivity) hst
        linarith
      rw [if_pos hsle]
      have heq : s + (k + 1 : ℕ) * st = (s + st) + k * st := by
        push_cast
        ring
      rw [heq] at hs ⊢
      exact List.mem_cons_of_mem s (ih (s + st) hs)

lemma goSteps_le (minS maxS step : ℚ) : goSteps minS maxS step ≤ 200 := by
  rw [goSteps]
  by_cases hc : 200 < 1 + goInt ((maxS - minS) / step + 0.5)
  · rw [if_pos hc]
    rfl
  · rw [if_neg hc]
    omega

lemma goSteps_exact (minS maxS step : ℚ) (k : ℕ) (hstep : 0 < step)
    (heq : maxS = minS + k * step) (hk : k ≤ 199) :
    goSteps minS maxS step = k + 1 := by
  have hratio : (maxS - minS) / step = (k : ℚ) := by
    rw [heq]
    field_simp
  have hfloor : goInt ((maxS - minS) / step + 0.5) = k := by
    rw [goInt, hratio, if_neg (not_lt.2 (by positivity))]
    rw [Int.floor_eq_iff]
    constructor
    · push_cast
      linarith
    · push_cast
      norm_num
  rw [goSteps, hfloor]
  rw [if_neg (by omega)]
  omega

/-- C5 amended: with no explicit list and valid `(min, max, step)` bounds,
the generated list is a prefix of the arithmetic sequence `min + i*step`
whose every element is at most `max + 1e-9`, of length at most 200; `max`
itself is reached exactly when the range is a multiple `k*step` with
`k <= 199`. -/
theorem C5_amended (minS maxS step : ℚ) (h1 : 0 < minS) (h2 : minS ≤ maxS)
    (h3 : 0 < step) :
    (genScales minS maxS step).length ≤ 200 ∧
      (∀ (i : ℕ) (hi : i < (genScales minS maxS step).length),
        (genScales minS maxS step).get ⟨i, hi⟩ = minS + i * step) ∧
      (∀ q ∈ genScales minS maxS step, q ≤ maxS + (1e-9 : ℚ)) ∧
      ∀ k : ℕ, maxS = minS + k * step → k ≤ 199 →
        maxS ∈ genScales minS maxS step := by
  refine ⟨?_, ?_, ?_, ?_⟩
  · exact le_trans (genLoop_length maxS step (goSteps minS maxS step) minS)
      (goSteps_le minS maxS step)
  · intro i hi
    exact genLoop_get maxS step (goSteps minS maxS step) minS i hi
  · intro q hq
    exact genLoop_mem_le maxS step (goSteps minS maxS step) minS q hq
  · intro k heq hk
    rw [genScales, goSteps_exact minS maxS step k h3 heq hk]
    have hlast : minS + k * step ≤ maxS + (1e-9 : ℚ) := by
      rw [← heq]
      norm_num
    have hmem := genLoop_mem_last maxS step h3.le k minS hlast
    rw [← heq] at hmem
    exact hmem

/-- C5 counterexample: with `min = 1`, `max = 2`, `step = 3/4` (all valid:
positive step, `min <= max`) the generated list is `[1, 7/4]` — the
sequence stops strictly below `max`, so `max` is not included. -/
theorem C5_counterexample :
    (0 : ℚ) < 1 ∧ (1 : ℚ) ≤ 2 ∧ (0 : ℚ) < 3 / 4 ∧
      genScales 1 2 (3 / 4) = [1, 7 / 4] ∧ (2 : ℚ) ∉ genScales 1 2 (3 / 4) := by
  have hsteps : goSteps 1 2 (3 / 4) = 2 := by
    have hfloor : goInt ((2 - 1 : ℚ) / (3 / 4) + 0.5) = 1 := by
      rw [goInt, if_neg (by norm_num)]
      rw [show ((2 - 1 : ℚ) / (3 / 4) + 0.5) = 11 / 6 by norm_num]
      rw [Int.floor_eq_iff]
      norm_num
    rw [goSteps, hfloor]
    rfl
  have hlist : genScales 1 2 (3 / 4) = [1, 7 / 4] := by
    rw [genScales, hsteps]
    rw [genLoop_succ, if_pos (by norm_num), genLoop_succ, if_pos (by norm_num),
      genLoop_zero]
    norm_num
  refine ⟨by norm_num, by norm_num, by norm_num, hlist, ?_⟩
  rw [hlist]
  norm_num

/-- C5 witness: for `min = 1`, `max = 2`, `step = 1/2` the list is capped at
200 and reaches `max` (the range is `2 * step`). -/
theorem C5_witness :
    (genScales 1 2 (1 / 2)).length ≤ 200 ∧ (2 : ℚ) ∈ genScales 1 2 (1 / 2) :=
  ⟨(C5_amended 1 2 (1 / 2) (by norm_num) (by norm_num) (by norm_num)).1,
    (C5_amended 1 2 (1 / 2) (by norm_num) (by norm_num) (by norm_num)).2.2.2 2
      (by push_cast; norm_num) (by norm_num)⟩

lemma feedTail_snd (b : BiteDetector) (candidate : Bool) (dt : ℚ) (cur : ℕ → ℕ)
    (t : ℚ) : (feedTail b candidate dt cur t).2 = false := by
  unfold feedTail
  rfl

lemma feedDecide_triggered (b3 : BiteDetector) (candidate bigImmediate : Bool)
    (dt : ℚ) (cur : ℕ → ℕ) (t : ℚ) :
    (feedDecide b3 candidate bigImmediate dt cur t).2 = true →
      (feedDecide b3 candidate bigImmediate dt cur t).1.triggered = true := by
  unfold feedDecide
  split
  · dsimp only
    split
    · intro _
      rfl
    · intro h
      rw [feedTail_snd] at h
      simp at h
  · intro h
    rw [feedTail_snd] at h
    simp at h

/-- C8: once triggered, `FeedFrame` is a no-op returning `false` and the
detector state is untouched until `Reset`; a call that returns `true`
leaves the detector triggered (so the detector can never report two bites
in one monitoring session); `Reset` clears the flag. -/
theorem C8_triggered_inert :
    (∀ (b : BiteDetector) (frame : Option Img) (t : ℚ),
        b.triggered = true → FeedFrame b frame t = (b, false)) ∧
      (∀ (b : BiteDetector) (frame : Option Img) (t : ℚ),
        (FeedFrame b frame t).2 = true → (FeedFrame b frame t).1.triggered = true) ∧
      ∀ (b : BiteDetector) (now : ℚ), (BiteDetector.Reset b now).triggered = false := by
  refine ⟨?_, ?_, fun b now => rfl⟩
  · intro b frame t h
    rcases frame with _ | fr
    · rfl
    · simp only [FeedFrame]
      rw [if_pos h]
  · intro b frame t
    rcases frame with _ | fr
    · intro h
      simp [FeedFrame] at h
    · simp only [FeedFrame]
      repeat' split
      all_goals intro h
      all_goals first
        | rfl
        | exact feedDecide_triggered _ _ _ _ _ _ h
        | exact absurd h (of_eq_true (by simp))

/-- C8 witness: feeding a frame to the triggered detector changes nothing
and reports no bite; a `Reset` clears the trigger. -/
theorem C8_witness :
    FeedFrame bdTriggered (some frameBlack) 5 = (bdTriggered, false) ∧
      (BiteDetector.Reset bdTriggered 9).triggered = false :=
  ⟨C8_triggered_inert.1 bdTriggered (some frameBlack) 5 rfl,
    C8_triggered_inert.2.2 bdTriggered 9⟩

lemma effNext_ne_reeling (n : FishingState) : effNext n ≠ FishingState.Reeling := by
  cases n <;> simp [effNext]

lemma transitionOnce_eq (s : FSMState) (next : FishingState) (now : ℚ)
    (h : s.state = next) : transitionOnce s next now = (s, []) := by
  unfold transitionOnce
  rw [if_pos h]

lemma transitionOnce_pairs (s : FSMState) (next : FishingState) (now : ℚ)
    (h : s.state ≠ next) :
    (transitionOnce s next now).2 = [(s.state, effNext next)] := by
  unfold transitionOnce
  rw [if_neg h]
  cases next <;> rfl

lemma transitionOnce_state (s : FSMState) (next : FishingState) (now : ℚ)
    (h : s.state ≠ next) :
    (transitionOnce s next now).1.state = effNext next := by
  unfold transitionOnce
  rw [if_neg h]
  cases next <;> (dsimp only [effNext]; repeat' split) <;> rfl

lemma transitionOnce_coords (s : FSMState) (next : FishingState) (now : ℚ) :
    (transitionOnce s next now).1.coordX = s.coordX ∧
      (transitionOnce s next now).1.coordY = s.coordY ∧
      (transitionOnce s next now).1.coordSet = s.coordSet := by
  unfold transitionOnce
  by_cases h : s.state = next
  · rw [if_pos h]
    exact ⟨rfl, rfl, rfl⟩
  · rw [if_neg h]
    cases next <;> (dsimp only; repeat' split) <;> exact ⟨rfl, rfl, rfl⟩

lemma transitionFull_eq (s : FSMState) (next : FishingState) (now : ℚ)
    (h : s.state = next) : transitionFull s next now = (s, []) := by
  unfold transitionFull
  rw [if_pos h]

lemma transitionFull_spec (s : FSMState) (next : FishingState) (now : ℚ)
    (h : s.state ≠ next) :
    (next ≠ FishingState.Casting →
        (transitionFull s next now).2 = [(s.state, effNext next)] ∧
          (transitionFull s next now).1.state = effNext next) ∧
      (next = FishingState.Casting →
        (transitionFull s next now).2 =
            [(s.state, FishingState.Casting), (FishingState.Casting, FishingState.Searching)] ∧
          (transitionFull s next now).1.state = FishingState.Searching) := by
  have hst := transitionOnce_state s next now h
  have hpr := transitionOnce_pairs s next now h
  constructor
  · intro hnc
    have hne : (transitionOnce s next now).1.state ≠ FishingState.Casting := by
      rw [hst]
      cases next <;> simp [effNext] <;> exact hnc rfl
    unfold transitionFull
    rw [if_neg h]
    dsimp only
    rw [if_neg hne]
    exact ⟨hpr, hst⟩
  · intro hc
    subst hc
    have hcast : (transitionOnce s FishingState.Casting now).1.state = FishingState.Casting := hst
    have h2 : (transitionOnce s FishingState.Casting now).1.state ≠ FishingState.Searching := by
      rw [hcast]
      simp
    have hpr2 := transitionOnce_pairs _ FishingState.Searching now h2
    have hst2 := transitionOnce_state _ FishingState.Searching now h2
    unfold transitionFull
    rw [if_neg h]
    dsimp only
    rw [if_pos hcast]
    constructor
    · dsimp only
      rw [hpr, hpr2, hcast]
      rfl
    · exact hst2

lemma transitionFull_coords (s : FSMState) (next : FishingState) (now : ℚ) :
    (transitionFull s next now).1.coordX = s.coordX ∧
      (transitionFull s next now).1.coordY = s.coordY ∧
      (transitionFull s next now).1.coordSet = s.coordSet := by
  unfold transitionFull
  by_cases h : s.state = next
  · rw [if_pos h]
    exact ⟨rfl, rfl, rfl⟩
  · rw [if_neg h]
    dsimp only
    obtain ⟨c1, c2, c3⟩ := transitionOnce_coords s next now
    split
    · obtain ⟨d1, d2, d3⟩ := transitionOnce_coords (transitionOnce s next now).1
        FishingState.Searching now
      exact ⟨d1.trans c1, d2.trans c2, d3.trans c3⟩
    · exact ⟨c1, c2, c3⟩

lemma transitionFull_ok (s : FSMState) (next : FishingState) (now : ℚ)
    (hprev : s.state ≠ FishingState.Reeling)
    (hok : s.state = next ∨ s.state ≠ effNext next) :
    (transitionFull s next now).1.state ≠ FishingState.Reeling ∧
      (∀ p ∈ (transitionFull s next now).2,
        p.1 ≠ FishingState.Reeling ∧ p.2 ≠ FishingState.Reeling) ∧
      (∀ p ∈ (transitionFull s next now).2, p.1 ≠ p.2) ∧
      ((transitionFull s next now).2.length ≤ 2) ∧
      ∀ a b, (transitionFull s next now).2 = [a, b] →
        a.2 = FishingState.Casting ∧ b = (FishingState.Casting, FishingState.Searching) := by
  by_cases heq : s.state = next
  · rw [transitionFull_eq s next now heq]
    exact ⟨hprev, by simp, by simp, by simp, by simp⟩
  · have hok' : s.state ≠ effNext next := hok.resolve_left heq
    have spec := transitionFull_spec s next now heq
    by_cases hc : next = FishingState.Casting
    · obtain ⟨hp, hst⟩ := spec.2 hc
      subst hc
      refine ⟨by rw [hst]; simp, ?_, ?_, by rw [hp]; simp, ?_⟩
      · intro p hmem
        rw [hp] at hmem
        simp only [List.mem_cons, List.not_mem_nil, or_false] at hmem
        rcases hmem with h | h <;> subst h
        · exact ⟨hprev, by simp⟩
        · exact ⟨by simp, by simp⟩
      · intro p hmem
        rw [hp] at hmem
        simp only [List.mem_cons, List.not_mem_nil, or_false] at hmem
        rcases hmem with h | h <;> subst h
        · simpa [effNext] using hok'
        · simp
      · intro a b hab
        rw [hp] at hab
        cases hab
        exact ⟨rfl, rfl⟩
    · obtain ⟨hp, hst⟩ := spec.1 hc
      refine ⟨by rw [hst]; exact effNext_ne_reeling next, ?_, ?_, by rw [hp]; simp, ?_⟩
      · intro p hmem
        rw [hp] at hmem
        simp only [List.mem_cons, List.not_mem_nil, or_false] at hmem
        subst hmem
        exact ⟨hprev, effNext_ne_reeling next⟩
      · intro p hmem
        rw [hp] at hmem
        simp only [List.mem_cons, List.not_mem_nil, or_false] at hmem
        subst hmem
        exact hok'
      · intro a b hab
        rw [hp] at hab
        cases hab

/-- C2, counterexample.  A single external force-cast event processed in
Searching makes the loop call `transition(Casting)`, whose tail chains
`transition(Searching)`: every registered listener is invoked twice for the
one event, and the ephemeral state Casting appears as the second argument of
the first invocation and the first argument of the second. -/
theorem C2_counterexample :
    (stepEvent fsmSearching Event.forceCast 0).2 =
      [(FishingState.Searching, FishingState.Casting),
        (FishingState.Casting, FishingState.Searching)] := by
  rfl

/-- C2, amended.  For any event processed from a stable state (one that is
not Reeling), the listener invocations `(prev, next)` emitted by the loop
satisfy: the post state is never Reeling; Reeling never appears in any
invocation (`transition(Reeling)` rewrites `next` to Cooldown before
notifying); every invocation has distinct arguments; at most two
invocations happen per event; and when there are two, the first enters
Casting and the second is exactly (Casting, Searching) — so Casting, unlike
Reeling, is observed by listeners. -/
theorem C2_amended (s : FSMState) (e : Event) (now : ℚ)
    (hprev : s.state ≠ FishingState.Reeling) :
    (stepEvent s e now).1.state ≠ FishingState.Reeling ∧
      (∀ p ∈ (stepEvent s e now).2,
        p.1 ≠ FishingState.Reeling ∧ p.2 ≠ FishingState.Reeling) ∧
      (∀ p ∈ (stepEvent s e now).2, p.1 ≠ p.2) ∧
      (stepEvent s e now).2.length ≤ 2 ∧
      (∀ a b, (stepEvent s e now).2 = [a, b] →
        a.2 = FishingState.Casting ∧ b = (FishingState.Casting, FishingState.Searching)) := by
  have triv : ∀ t : FSMState, t.state ≠ FishingState.Reeling →
      t.state ≠ FishingState.Reeling ∧
        (∀ p ∈ ([] : List (FishingState × FishingState)),
          p.1 ≠ FishingState.Reeling ∧ p.2 ≠ FishingState.Reeling) ∧
        (∀ p ∈ ([] : List (FishingState × FishingState)), p.1 ≠ p.2) ∧
        ([] : List (FishingState × FishingState)).length ≤ 2 ∧
        (∀ a b, ([] : List (FishingState × FishingState)) = [a, b] →
          a.2 = FishingState.Casting ∧ b = (FishingState.Casting, FishingState.Searching)) :=
    fun t ht => ⟨ht, by simp, by simp, by simp, by simp⟩
  cases e with
  | addListener => exact triv _ hprev
  | targetAcquired =>
      by_cases hg : s.state = FishingState.Searching
      · have h := transitionFull_ok s FishingState.Monitoring now hprev
          (Or.inr (by rw [hg]; simp [effNext]))
        simp only [stepEvent]
        rw [if_pos hg]
        exact h
      · simp only [stepEvent]
        rw [if_neg hg]
        exact triv _ hprev
  | targetAcquiredAt x y =>
      by_cases hg : s.state = FishingState.Searching
      · have h := transitionFull_ok
          { s with coordX := x, coordY := y, coordSet := true }
          FishingState.Monitoring now hprev (Or.inr (by show s.state ≠ _; rw [hg]; simp [effNext]))
        simp only [stepEvent]
        rw [if_pos (show ({ s with coordX := x, coordY := y, coordSet := true } : FSMState).state
          = FishingState.Searching from hg)]
        exact h
      · simp only [stepEvent]
        rw [if_neg (show ¬({ s with coordX := x, coordY := y, coordSet := true } : FSMState).state
          = FishingState.Searching from hg)]
        exact triv _ hprev
  | targetLost =>
      by_cases hg : s.state = FishingState.Monitoring
      · have h := transitionFull_ok s FishingState.Casting now hprev
          (Or.inr (by rw [hg]; simp [effNext]))
        simp only [stepEvent]
        rw [if_pos hg]
        exact h
      · simp only [stepEvent]
        rw [if_neg hg]
        exact triv _ hprev
  | halt =>
      cases hb : s.biteDetector with
      | none =>
          have h := transitionFull_ok
            { s with cooldownUntil := 0, coordSet := false, biteDetector := none }
            FishingState.Halt now hprev
            (by
              by_cases hh : s.state = FishingState.Halt
              · exact Or.inl hh
              · exact Or.inr (by show s.state ≠ _; simpa [effNext] using hh))
          simp only [stepEvent, hb]
          exact h
      | some bd =>
          have h := transitionFull_ok
            { s with cooldownUntil := 0, coordSet := false, biteDetector := some (bd.Reset now) }
            FishingState.Halt now hprev
            (by
              by_cases hh : s.state = FishingState.Halt
              · exact Or.inl hh
              · exact Or.inr (by show s.state ≠ _; simpa [effNext] using hh))
          simp only [stepEvent, hb]
          exact h
  | fishBite =>
      by_cases hg : s.state = FishingState.Monitoring
      · have h := transitionFull_ok s FishingState.Reeling now hprev
          (Or.inr (by rw [hg]; simp [effNext]))
        simp only [stepEvent]
        rw [if_pos hg]
        exact h
      · simp only [stepEvent]
        rw [if_neg hg]
        exact triv _ hprev
  | monitoringFrame roi tEvt =>
      cases hb : s.biteDetector with
      | none => simp only [stepEvent, hb]; exact triv _ hprev
      | some bd =>
          cases hr : roi with
          | none => simp only [stepEvent, hb, hr]; exact triv _ hprev
          | some r =>
              simp only [stepEvent, hb, hr]
              by_cases hg : s.state = FishingState.Monitoring
              · rw [if_pos hg]
                by_cases hf : (FeedFrame bd (some r) tEvt).2 = true
                · rw [if_pos hf]
                  exact transitionFull_ok
                    { s with biteDetector := some (FeedFrame bd (some r) tEvt).1 }
                    FishingState.Reeling now hprev
                    (Or.inr (by show s.state ≠ _; rw [hg]; simp [effNext]))
                · rw [if_neg hf]
                  by_cases hl : TargetLostHeuristic (FeedFrame bd (some r) tEvt).1 now = true
                  · rw [if_pos hl]
                    exact transitionFull_ok
                      { s with biteDetector := some (FeedFrame bd (some r) tEvt).1 }
                      FishingState.Casting now hprev
                      (Or.inr (by show s.state ≠ _; rw [hg]; simp [effNext]))
                  · rw [if_neg hl]
                    exact triv _ hprev
              · rw [if_neg hg]
                exact triv _ hprev
  | focusAcquired =>
      by_cases hg : s.state = FishingState.WaitingFocus
      · have h := transitionFull_ok s FishingState.Searching now hprev
          (Or.inr (by rw [hg]; simp [effNext]))
        simp only [stepEvent]
        rw [if_pos hg]
        exact h
      · simp only [stepEvent]
        rw [if_neg hg]
        exact triv _ hprev
  | awaitFocus =>
      by_cases hg : s.state = FishingState.Halt
      · have h := transitionFull_ok s FishingState.WaitingFocus now hprev
          (Or.inr (by rw [hg]; simp [effNext]))
        simp only [stepEvent]
        rw [if_pos hg]
        exact h
      · simp only [stepEvent]
        rw [if_neg hg]
        exact triv _ hprev
  | forceCast =>
      by_cases hg : s.state = FishingState.Casting
      · simp only [stepEvent]
        rw [if_neg (not_not_intro hg)]
        exact triv _ hprev
      · have h := transitionFull_ok s FishingState.Casting now hprev
          (Or.inr (by simpa [effNext] using hg))
        simp only [stepEvent]
        rw [if_pos hg]
        exact h
  | cancel => exact triv _ hprev

/-- C2, witness: the amended theorem applied to a concrete searching machine
processing a force-cast event. -/
theorem C2_witness :
    fsmSearching.state ≠ FishingState.Reeling ∧
      (stepEvent fsmSearching Event.forceCast 0).1.state ≠ FishingState.Reeling ∧
      (stepEvent fsmSearching Event.forceCast 0).2.length ≤ 2 :=
  ⟨by decide,
    (C2_amended fsmSearching Event.forceCast 0 (by decide)).1,
    (C2_amended fsmSearching Event.forceCast 0 (by decide)).2.2.2.1⟩

/-- C9, counterexample.  A target-acquired-at event processed while the
machine is halted (not Searching) still stores the coordinate and marks it
set: the machine stays in Halt, no Monitoring transition is accepted, yet
TargetCoordinates reports the new point as locked. -/
theorem C9_counterexample :
    fsmHalt.state = FishingState.Halt ∧
      TargetCoordinates fsmHalt = (0, 0, false) ∧
      (stepEvent fsmHalt (Event.targetAcquiredAt 5 7) 0).1.state = FishingState.Halt ∧
      (stepEvent fsmHalt (Event.targetAcquiredAt 5 7) 0).2 = [] ∧
      TargetCoordinates (stepEvent fsmHalt (Event.targetAcquiredAt 5 7) 0).1 = (5, 7, true) :=
  ⟨rfl, rfl, rfl, rfl, rfl⟩

/-- C9, amended.  The locked coordinate is set by every target-acquired-at
event, whatever state the machine is in (the loop stores x, y and the set
flag before checking the Searching guard); a halt event always clears it
(TargetCoordinates then reports not-set); every other event leaves the
coordinate fields untouched. -/
theorem C9_amended (s : FSMState) (now : ℚ) :
    (∀ x y,
      (stepEvent s (Event.targetAcquiredAt x y) now).1.coordX = x ∧
        (stepEvent s (Event.targetAcquiredAt x y) now).1.coordY = y ∧
        (stepEvent s (Event.targetAcquiredAt x y) now).1.coordSet = true) ∧
      (stepEvent s Event.halt now).1.coordSet = false ∧
      TargetCoordinates (stepEvent s Event.halt now).1 = (0, 0, false) ∧
      (∀ e, (∀ x y, e ≠ Event.targetAcquiredAt x y) → e ≠ Event.halt →
        (stepEvent s e now).1.coordX = s.coordX ∧
          (stepEvent s e now).1.coordY = s.coordY ∧
          (stepEvent s e now).1.coordSet = s.coordSet) := by
  have hset : ∀ x y,
      (stepEvent s (Event.targetAcquiredAt x y) now).1.coordX = x ∧
        (stepEvent s (Event.targetAcquiredAt x y) now).1.coordY = y ∧
        (stepEvent s (Event.targetAcquiredAt x y) now).1.coordSet = true := by
    intro x y
    simp only [stepEvent]
    by_cases hg : s.state = FishingState.Searching
    · rw [if_pos (show ({ s with coordX := x, coordY := y, coordSet := true } : FSMState).state
        = FishingState.Searching from hg)]
      exact transitionFull_coords
        { s with coordX := x, coordY := y, coordSet := true } FishingState.Monitoring now
    · rw [if_neg (show ¬({ s with coordX := x, coordY := y, coordSet := true } : FSMState).state
        = FishingState.Searching from hg)]
      exact ⟨rfl, rfl, rfl⟩
  have hclear : (stepEvent s Event.halt now).1.coordSet = false := by
    cases hb : s.biteDetector with
    | none =>
        simp only [stepEvent, hb]
        exact (transitionFull_coords
          { s with cooldownUntil := 0, coordSet := false, biteDetector := none }
          FishingState.Halt now).2.2
    | some bd =>
        simp only [stepEvent, hb]
        exact (transitionFull_coords
          { s with cooldownUntil := 0, coordSet := false, biteDetector := some (bd.Reset now) }
          FishingState.Halt now).2.2
  refine ⟨hset, hclear, ?_, ?_⟩
  · unfold TargetCoordinates
    rw [hclear]
    rfl
  · intro e he hh
    cases e with
    | targetAcquiredAt x y => exact absurd rfl (he x y)
    | halt => exact absurd rfl hh
    | addListener => exact ⟨rfl, rfl, rfl⟩
    | cancel => exact ⟨rfl, rfl, rfl⟩
    | targetAcquired =>
        simp only [stepEvent]
        by_cases hg : s.state = FishingState.Searching
        · rw [if_pos hg]
          exact transitionFull_coords s FishingState.Monitoring now
        · rw [if_neg hg]
          exact ⟨rfl, rfl, rfl⟩
    | targetLost =>
        simp only [stepEvent]
        by_cases hg : s.state = FishingState.Monitoring
        · rw [if_pos hg]
          exact transitionFull_coords s FishingState.Casting now
        · rw [if_neg hg]
          exact ⟨rfl, rfl, rfl⟩
    | fishBite =>
        simp only [stepEvent]
        by_cases hg : s.state = FishingState.Monitoring
        · rw [if_pos hg]
          exact transitionFull_coords s FishingState.Reeling now
        · rw [if_neg hg]
          exact ⟨rfl, rfl, rfl⟩
    | monitoringFrame roi tEvt =>
        cases hb : s.biteDetector with
        | none => simp [stepEvent, hb]
        | some bd =>
            cases hr : roi with
            | none => simp [stepEvent, hb, hr]
            | some r =>
                simp only [stepEvent, hb, hr]
                by_cases hg : s.state = FishingState.Monitoring
                · rw [if_pos hg]
                  by_cases hf : (FeedFrame bd (some r) tEvt).2 = true
                  · rw [if_pos hf]
                    exact transitionFull_coords
                      { s with biteDetector := some (FeedFrame bd (some r) tEvt).1 }
                      FishingState.Reeling now
                  · rw [if_neg hf]
                    by_cases hl : TargetLostHeuristic (FeedFrame bd (some r) tEvt).1 now = true
                    · rw [if_pos hl]
                      exact transitionFull_coords
                        { s with biteDetector := some (FeedFrame bd (some r) tEvt).1 }
                        FishingState.Casting now
                    · rw [if_neg hl]
                      exact ⟨rfl, rfl, rfl⟩
                · rw [if_neg hg]
                  exact ⟨rfl, rfl, rfl⟩
    | focusAcquired =>
        simp only [stepEvent]
        by_cases hg : s.state = FishingState.WaitingFocus
        · rw [if_pos hg]
          exact transitionFull_coords s FishingState.Searching now
        · rw [if_neg hg]
          exact ⟨rfl, rfl, rfl⟩
    | awaitFocus =>
        simp only [stepEvent]
        by_cases hg : s.state = FishingState.Halt
        · rw [if_pos hg]
          exact transitionFull_coords s FishingState.WaitingFocus now
        · rw [if_neg hg]
          exact ⟨rfl, rfl, rfl⟩
    | forceCast =>
        simp only [stepEvent]
        by_cases hg : s.state = FishingState.Casting
        · rw [if_neg (not_not_intro hg)]
          exact ⟨rfl, rfl, rfl⟩
        · rw [if_pos hg]
          exact transitionFull_coords s FishingState.Casting now

lemma msAggregate_mono (stopOn : ℚ) (early : Bool) :
    ∀ (rs : List MultiScaleResult) (best : MultiScaleResult),
      best.Score ≤ (msAggregate stopOn early best rs).Score := by
  intro rs
  induction rs with
  | nil => intro best; exact le_refl _
  | cons r rest ih =>
      intro best
      have hb1 : best.Score ≤ (if best.Score < r.Score then r else best).Score := by
        by_cases hb : best.Score < r.Score
        · rw [if_pos hb]; exact le_of_lt hb
        · rw [if_neg hb]
      simp only [msAggregate]
      by_cases hbrk : early = true ∧ 0 < stopOn ∧ (stopOn : ℝ) ≤ r.Score
      · rw [if_pos hbrk]; exact hb1
      · rw [if_neg hbrk]; exact le_trans hb1 (ih _)

lemma msAggregate_reach (stopOn : ℚ) (h0 : 0 < stopOn) :
    ∀ (rs : List MultiScaleResult) (best : MultiScaleResult),
      (∃ r ∈ rs, (stopOn : ℝ) ≤ r.Score) →
        (stopOn : ℝ) ≤ (msAggregate stopOn true best rs).Score := by
  intro rs
  induction rs with
  | nil =>
      intro best h
      rcases h with ⟨r, hr, _⟩
      cases hr
  | cons r rest ih =>
      intro best h
      simp only [msAggregate]
      by_cases hr : (stopOn : ℝ) ≤ r.Score
      · rw [if_pos (by exact ⟨by trivial, h0, hr⟩)]
        by_cases hb : best.Score < r.Score
        · rw [if_pos hb]; exact hr
        · rw [if_neg hb]; exact le_trans hr (not_lt.1 hb)
      · rw [if_neg fun hc => hr hc.2.2]
        rcases h with ⟨s, hs, hsc⟩
        rcases List.mem_cons.1 hs with he | he
        · subst he; exact absurd hsc hr
        · exact ih _ ⟨s, he, hsc⟩

lemma msWorkers_flag (frame : Img) (base : TemplatePrecomp)
    (opts : MultiScaleOptions) (pre : GrayPrecomp) :
    ∀ (scales : List ℚ) (early : Bool) (c : TmplCache),
      (msWorkers frame base opts pre scales early c).2.1 = true →
        early = true ∨
          ∃ r ∈ (msWorkers frame base opts pre scales early c).1,
            0 < opts.StopOnScore ∧ (opts.StopOnScore : ℝ) ≤ r.Score := by
  intro scales
  induction scales with
  | nil => intro early c h; exact Or.inl h
  | cons f rest ih =>
      intro early c h
      simp only [msWorkers] at h ⊢
      by_cases h1 : f ≤ 0
      · rw [if_pos h1] at h ⊢
        exact ih early c h
      · rw [if_neg h1] at h ⊢
        by_cases h2 : early = true
        · exact Or.inl h2
        · rw [if_neg h2] at h ⊢
          cases hg : getScaledTemplatePrecompFromBase c base f with
          | mk opc c1 =>
              rw [hg] at h
              cases opc with
              | none => exact ih early c1 h
              | some pc =>
                  simp only at h ⊢
                  by_cases hstop : 0 < opts.StopOnScore ∧ (opts.StopOnScore : ℝ) ≤
                      (matchTemplateNCCGrayIntegralPre frame pc opts.NCC pre).Score
                  · rw [if_pos hstop] at h ⊢
                    exact Or.inr ⟨_, List.mem_cons_self _ _, hstop.1, hstop.2⟩
                  · rw [if_neg hstop] at h ⊢
                    rcases ih early c1 h with he | ⟨r, hrm, hr⟩
                    · exact Or.inl he
                    · exact Or.inr ⟨r, List.mem_cons_of_mem _ hrm, hr⟩

lemma msRun_score (frame : Img) (base : TemplatePrecomp)
    (opts : MultiScaleOptions) (pre : GrayPrecomp) (c : TmplCache)
    (h0 : 0 < opts.StopOnScore)
    (hflag : (msWorkers frame base opts pre opts.Scales false c).2.1 = true) :
    (opts.StopOnScore : ℝ) ≤ (msRun frame base opts pre c).1.Score := by
  rcases msWorkers_flag frame base opts pre opts.Scales false c hflag with he | ⟨r, hrm, _, hrs⟩
  · cases he
  · simp only [msRun]
    rw [hflag]
    have hagg := msAggregate_reach opts.StopOnScore h0
      (msWorkers frame base opts pre opts.Scales false c).1
      { X := 0, Y := 0, Score := -1, Scale := 0, Found := false, ScalesEvaluated := 0 }
      ⟨r, hrm, hrs⟩
    by_cases hc : 0 < (msWorkers frame base opts pre opts.Scales false c).2.2.1
    · rw [if_pos hc]; exact hagg
    · rw [if_neg hc]; exact hagg

lemma gray_pixVal (v : ℕ) : grayOfPix (pixVal v) = (v : ℚ) := by
  rw [grayOfPix, if_pos (by simp [pixVal])]
  show (0.2126 : ℚ) * (pixVal v).r + 0.7152 * (pixVal v).g + 0.0722 * (pixVal v).b = v
  simp only [pixVal]
  ring_nf

lemma pcC4_gray : pcC4.gray 0 = 11 ∧ pcC4.gray 1 = 11 ∧ pcC4.gray 2 = 9 ∧ pcC4.gray 3 = 9 := by
  refine ⟨?_, ?_, ?_, ?_⟩ <;>
    simp [pcC4, buildTemplatePrecomp, tmplC4, gray_pixVal]

lemma preC4_gray : preC4.gray 0 = 15 ∧ preC4.gray 1 = 9 ∧ preC4.gray 2 = 9 ∧ preC4.gray 3 = 7 := by
  refine ⟨?_, ?_, ?_, ?_⟩ <;>
    simp [preC4, buildGrayPrecomp, frameC4, gray_pixVal]

lemma pcC4_sumT : pcC4.sumT = 40 := by
  obtain ⟨g0, g1, g2, g3⟩ := pcC4_gray
  have h : pcC4.sumT = ∑ i ∈ Finset.range (pcC4.W * pcC4.H), pcC4.gray i :=
    (buildTemplatePrecomp_consistent tmplC4).1
  rw [h, show pcC4.W * pcC4.H = 4 from rfl, Finset.sum_range_succ, Finset.sum_range_succ,
    Finset.sum_range_succ, Finset.sum_range_one, g0, g1, g2, g3]
  norm_num

lemma pcC4_sumT2 : pcC4.sumT2 = 404 := by
  obtain ⟨g0, g1, g2, g3⟩ := pcC4_gray
  have h : pcC4.sumT2 = ∑ i ∈ Finset.range (pcC4.W * pcC4.H), pcC4.gray i * pcC4.gray i :=
    (buildTemplatePrecomp_consistent tmplC4).2.1
  rw [h, show pcC4.W * pcC4.H = 4 from rfl, Finset.sum_range_succ, Finset.sum_range_succ,
    Finset.sum_range_succ, Finset.sum_range_one, g0, g1, g2, g3]
  norm_num

lemma pcC4_meanT : pcC4.meanT = 10 := by
  have h : pcC4.meanT = pcC4.sumT / ((pcC4.W * pcC4.H : ℕ) : ℚ) :=
    (buildTemplatePrecomp_consistent tmplC4).2.2.1
  rw [h, pcC4_sumT, show pcC4.W * pcC4.H = 4 from rfl]
  norm_num

lemma pcC4_varT : pcC4.varT = 1 := by
  have h : pcC4.varT =
      (pcC4.sumT2 - pcC4.sumT * pcC4.sumT / ((pcC4.W * pcC4.H : ℕ) : ℚ)) /
        ((pcC4.W * pcC4.H : ℕ) : ℚ) :=
    (buildTemplatePrecomp_consistent tmplC4).2.2.2
  rw [h, pcC4_sumT, pcC4_sumT2, show pcC4.W * pcC4.H = 4 from rfl]
  norm_num

lemma pcC4_stdT : pcC4.stdT = 1 := by
  rw [TemplatePrecomp.stdT, pcC4_varT, if_pos (by norm_num : (0 : ℚ) < 1),
    show ((1 : ℚ) : ℝ) = 1 by norm_num, Real.sqrt_one]

lemma preC4_winSumF : windowSumF preC4 2 2 0 0 = 40 := by
  obtain ⟨g0, g1, g2, g3⟩ := preC4_gray
  rw [integral_window_sum preC4 2 2 0 0 (by norm_num) (by norm_num)]
  simp only [show preC4.W = 2 from rfl]
  rw [show 2 * 2 = 4 from rfl, Finset.sum_range_succ, Finset.sum_range_succ,
    Finset.sum_range_succ, Finset.sum_range_one]
  norm_num [g0, g1, g2, g3]

lemma preC4_winSumF2 : windowSumF2 preC4 2 2 0 0 = 436 := by
  obtain ⟨g0, g1, g2, g3⟩ := preC4_gray
  rw [integralSq_window_sum preC4 2 2 0 0 (by norm_num) (by norm_num)]
  simp only [show preC4.W = 2 from rfl]
  rw [show 2 * 2 = 4 from rfl, Finset.sum_range_succ, Finset.sum_range_succ,
    Finset.sum_range_succ, Finset.sum_range_one]
  norm_num [g0, g1, g2, g3]

lemma preC4_varF : windowVarF preC4 2 2 0 0 = 9 := by
  rw [windowVarF, preC4_winSumF, preC4_winSumF2]
  norm_num

lemma preC4_sumFT : windowSumFT preC4 pcC4 0 0 = 408 := by
  obtain ⟨g0, g1, g2, g3⟩ := preC4_gray
  obtain ⟨t0, t1, t2, t3⟩ := pcC4_gray
  rw [windowSumFT]
  simp only [show preC4.W = 2 from rfl, show pcC4.W = 2 from rfl,
    show pcC4.H = 2 from rfl]
  rw [show 2 * 2 = 4 from rfl, Finset.sum_range_succ, Finset.sum_range_succ,
    Finset.sum_range_succ, Finset.sum_range_one]
  norm_num [g0, g1, g2, g3, t0, t1, t2, t3]

lemma sqrt_nine : Real.sqrt ((9 : ℚ) : ℝ) = 3 := by
  rw [show ((9 : ℚ) : ℝ) = (3 : ℝ) ^ 2 by norm_num]
  exact Real.sqrt_sq (by norm_num)

lemma evalWindowC4 : evalWindow preC4 pcC4 0 0 = some ((2 : ℝ) / 3) := by
  simp only [evalWindow, show pcC4.W = 2 from rfl, show pcC4.H = 2 from rfl]
  rw [preC4_varF, preC4_winSumF, preC4_sumFT, pcC4_meanT, pcC4_stdT, sqrt_nine]
  rw [if_neg (by norm_num)]
  rw [if_neg (by push_cast; norm_num)]
  push_cast
  norm_num

lemma matcherC4 :
    matchTemplateNCCGrayIntegralPre frameC4 pcC4 optsNCC4 preC4 =
      { X := 0, Y := 0, Score := (2 : ℝ) / 3, Found := false } := by
  simp only [matchTemplateNCCGrayIntegralPre]
  rw [if_neg (by decide)]
  rw [if_neg (by rw [pcC4_stdT]; norm_num)]
  have hscan : normalScanBest preC4 pcC4 optsNCC4 frameC4.W frameC4.H =
      ((2 : ℝ) / 3, 0, 0) := by
    simp only [normalScanBest]
    rw [if_neg (by decide)]
    rw [show scanPts frameC4.W frameC4.H pcC4.W pcC4.H
        (if optsNCC4.Stride = 0 then 1 else optsNCC4.Stride) = [(0, 0)] from by decide]
    simp only [scanBest]
    rw [evalWindowC4]
    simp only
    rw [if_pos (by norm_num)]
  rw [hscan]
  simp only
  rw [if_neg (by rw [show optsNCC4.Threshold = 0.8 from rfl]; push_cast; norm_num)]

lemma msWorkersC4 (c : TmplCache) :
    msWorkers frameC4 pcC4 optsC4 preC4 [1] false c = ([msrC4], true, 1, c) := by
  have hg : getScaledTemplatePrecompFromBase c pcC4 1 = (some pcC4, c) := by
    rw [getScaledTemplatePrecompFromBase]
    rw [if_neg (by norm_num), if_pos rfl]
  have hstop : 0 < optsC4.StopOnScore ∧ ((optsC4.StopOnScore : ℚ) : ℝ) ≤ (2 : ℝ) / 3 := by
    refine ⟨by norm_num [optsC4], ?_⟩
    rw [show optsC4.StopOnScore = 0.5 from rfl]
    push_cast
    norm_num
  simp only [msWorkers]
  rw [if_neg (by norm_num : ¬(1 : ℚ) ≤ 0)]
  rw [hg]
  simp only [show optsC4.NCC = optsNCC4 from rfl, matcherC4]
  rw [if_pos hstop]
  rfl

lemma msRunC4 (c : TmplCache) :
    (msRun frameC4 pcC4 optsC4 preC4 c).1 = { msrC4 with ScalesEvaluated := 1 } := by
  have hbrk : True ∧ 0 < optsC4.StopOnScore ∧
      ((optsC4.StopOnScore : ℚ) : ℝ) ≤ msrC4.Score := by
    refine ⟨trivial, by norm_num [optsC4], ?_⟩
    rw [show optsC4.StopOnScore = 0.5 from rfl, show msrC4.Score = (2 : ℝ) / 3 from rfl]
    push_cast
    norm_num
  have hlt : (-1 : ℝ) < msrC4.Score := by
    rw [show msrC4.Score = (2 : ℝ) / 3 from rfl]
    norm_num
  simp only [msRun, show optsC4.Scales = [1] from rfl, msWorkersC4 c]
  simp only [msAggregate]
  rw [if_pos hbrk]
  rw [if_pos hlt]
  rw [if_pos (by norm_num)]

lemma msParallelC4 :
    (MultiScaleMatchParallel (some frameC4) (some tmplC4) optsC4 noCache).1 =
      { msrC4 with ScalesEvaluated := 1 } := by
  have hgt : getTemplatePrecomp noCache tmplC4 =
      (some pcC4, fun k => if k = (2, 2) then some pcC4 else noCache k) := by
    rw [getTemplatePrecomp]
    rw [if_neg (by decide)]
    rfl
  simp only [MultiScaleMatchParallel]
  rw [hgt]
  simp only
  rw [if_neg (by decide : ¬optsC4.Scales = [])]
  exact msRunC4 _

/-- C4, counterexample.  One evaluated scale reaches `StopOnScore = 0.5`
(score 2/3), the orchestrator stops early and returns that score — but
`Found` is the per-scale threshold flag (score ≥ Threshold = 0.8), so the
result has `found = false`, contradicting the claimed `found = true`. -/
theorem C4_counterexample :
    0 < optsC4.StopOnScore ∧
      (optsC4.StopOnScore : ℝ) ≤
        (MultiScaleMatchParallel (some frameC4) (some tmplC4) optsC4 noCache).1.Score ∧
      (MultiScaleMatchParallel (some frameC4) (some tmplC4) optsC4 noCache).1.Found = false ∧
      (MultiScaleMatchParallel (some frameC4) (some tmplC4) optsC4 noCache).1.Score =
        (2 : ℝ) / 3 := by
  rw [msParallelC4]
  refine ⟨by norm_num [show optsC4.StopOnScore = 0.5 from rfl], ?_, rfl, rfl⟩
  rw [show optsC4.StopOnScore = 0.5 from rfl,
    show ({ msrC4 with ScalesEvaluated := 1 } : MultiScaleResult).Score = (2 : ℝ) / 3 from rfl]
  push_cast
  norm_num

/-- C4, amended.  In the sequential interleaving of the worker pool: when
`StopOnScore` is positive and the early-stop flag got set, some published
record reached `StopOnScore` and the orchestrator's returned score is at
least `StopOnScore` (found, however, remains the per-scale threshold flag);
and the aggregation loop never replaces the collected best with a strictly
lower score, whatever the flag. -/
theorem C4_amended (frame : Img) (base : TemplatePrecomp)
    (opts : MultiScaleOptions) (pre : GrayPrecomp) (c : TmplCache)
    (h0 : 0 < opts.StopOnScore)
    (hflag : (msWorkers frame base opts pre opts.Scales false c).2.1 = true) :
    (∃ r ∈ (msWorkers frame base opts pre opts.Scales false c).1,
        (opts.StopOnScore : ℝ) ≤ r.Score) ∧
      (opts.StopOnScore : ℝ) ≤ (msRun frame base opts pre c).1.Score ∧
      ∀ (stopOn : ℚ) (early : Bool) (best : MultiScaleResult)
        (rs : List MultiScaleResult),
        best.Score ≤ (msAggregate stopOn early best rs).Score := by
  refine ⟨?_, msRun_score frame base opts pre c h0 hflag,
    fun stopOn early best rs => msAggregate_mono stopOn early rs best⟩
  rcases msWorkers_flag frame base opts pre opts.Scales false c hflag with he | ⟨r, hrm, _, hrs⟩
  · cases he
  · exact ⟨r, hrm, hrs⟩

/-- C4, witness: the amended theorem applied to the concrete stop-early
run of `frameC4`/`tmplC4`. -/
theorem C4_witness :
    (0 : ℚ) < optsC4.StopOnScore ∧
      (optsC4.StopOnScore : ℝ) ≤ (msRun frameC4 pcC4 optsC4 preC4 noCache).1.Score :=
  ⟨by norm_num [show optsC4.StopOnScore = 0.5 from rfl],
    (C4_amended frameC4 pcC4 optsC4 preC4 noCache
      (by norm_num [show optsC4.StopOnScore = 0.5 from rfl])
      (by rw [show optsC4.Scales = [1] from rfl, msWorkersC4 noCache])).2.1⟩

lemma vStep1_useRGB (c : Config) (b : Bool) :
    vStep1 { c with UseRGB := b } = { vStep1 c with UseRGB := b } := by
  simp only [vStep1]
  by_cases h : c.MinScale ≤ 0
  · simp only [if_pos h]
  · simp only [if_neg h]

lemma vStep2_useRGB (c : Config) (b : Bool) :
    vStep2 { c with UseRGB := b } = { vStep2 c with UseRGB := b } := by
  simp only [vStep2]
  by_cases h : c.MaxScale ≤ 0 ∨ c.MaxScale < c.MinScale
  · simp only [if_pos h]
  · simp only [if_neg h]

lemma vStep3_useRGB (c : Config) (b : Bool) :
    vStep3 { c with UseRGB := b } = { vStep3 c with UseRGB := b } := by
  simp only [vStep3]
  by_cases h : c.ScaleStep ≤ 0
  · simp only [if_pos h]
  · simp only [if_neg h]

lemma vStep4_useRGB (c : Config) (b : Bool) :
    vStep4 { c with UseRGB := b } = { vStep4 c with UseRGB := b } := by
  simp only [vStep4]
  by_cases h : c.MaxScale - c.MinScale < c.ScaleStep
  · simp only [if_pos h]
  · simp only [if_neg h]

lemma vStep5_useRGB (c : Config) (b : Bool) :
    vStep5 { c with UseRGB := b } = { vStep5 c with UseRGB := b } := by
  simp only [vStep5]
  by_cases h : c.Threshold ≤ 0 ∨ 1 < c.Threshold
  · simp only [if_pos h]
  · simp only [if_neg h]

lemma vStep6_useRGB (c : Config) (b : Bool) :
    vStep6 { c with UseRGB := b } = { vStep6 c with UseRGB := b } := by
  simp only [vStep6]
  by_cases h : c.Stride ≤ 0
  · simp only [if_pos h]
  · simp only [if_neg h]

lemma vStep7_useRGB (c : Config) (b : Bool) :
    vStep7 { c with UseRGB := b } = { vStep7 c with UseRGB := b } := by
  simp only [vStep7]
  by_cases h : c.StopOnScore < 0 ∨ 1 < c.StopOnScore
  · simp only [if_pos h]
  · simp only [if_neg h]

lemma vStep8_useRGB (c : Config) (b : Bool) :
    vStep8 { c with UseRGB := b } = { vStep8 c with UseRGB := b } := by
  simp only [vStep8]
  by_cases h : c.ROISizePx < 32
  · simp only [if_pos h]
  · simp only [if_neg h]

lemma vStep9_useRGB (c : Config) (b : Bool) :
    vStep9 { c with UseRGB := b } = { vStep9 c with UseRGB := b } := by
  simp only [vStep9]
  by_cases h : 256 < c.ROISizePx
  · simp only [if_pos h]
  · simp only [if_neg h]

lemma vStep10_useRGB (c : Config) (b : Bool) :
    vStep10 { c with UseRGB := b } = { vStep10 c with UseRGB := b } := by
  simp only [vStep10]
  by_cases h : c.MaxCastDurationSeconds < 5
  · simp only [if_pos h]
  · simp only [if_neg h]

lemma vStep11_useRGB (c : Config) (b : Bool) :
    vStep11 { c with UseRGB := b } = { vStep11 c with UseRGB := b } := by
  simp only [vStep11]
  by_cases h : 180 < c.MaxCastDurationSeconds
  · simp only [if_pos h]
  · simp only [if_neg h]

lemma vStep12_useRGB (c : Config) (b : Bool) :
    vStep12 { c with UseRGB := b } = { vStep12 c with UseRGB := b } := by
  simp only [vStep12]
  by_cases h : c.CooldownSeconds ≤ 0
  · simp only [if_pos h]
  · simp only [if_neg h]

lemma vStep13_useRGB (c : Config) (b : Bool) :
    vStep13 { c with UseRGB := b } = { vStep13 c with UseRGB := b } := by
  simp only [vStep13]
  by_cases h : 60 < c.CooldownSeconds
  · simp only [if_pos h]
  · simp only [if_neg h]

lemma validate_update_useRGB (cfg : Config) (b : Bool) :
    ({ cfg with UseRGB := b } : Config).Validate = { cfg.Validate with UseRGB := b } := by
  simp only [Config.Validate, vStep1_useRGB, vStep2_useRGB, vStep3_useRGB, vStep4_useRGB,
    vStep5_useRGB, vStep6_useRGB, vStep7_useRGB, vStep8_useRGB, vStep9_useRGB,
    vStep10_useRGB, vStep11_useRGB, vStep12_useRGB, vStep13_useRGB]

lemma validateC3 : cfgC3.Validate = cfgC3 := by
  rw [Config.Validate]
  rw [show vStep1 cfgC3 = cfgC3 from by rw [vStep1, if_neg (by norm_num [cfgC3])]]
  rw [show vStep2 cfgC3 = cfgC3 from by rw [vStep2, if_neg (by norm_num [cfgC3])]]
  rw [show vStep3 cfgC3 = cfgC3 from by rw [vStep3, if_neg (by norm_num [cfgC3])]]
  rw [show vStep4 cfgC3 = cfgC3 from by rw [vStep4, if_neg (by norm_num [cfgC3])]]
  rw [show vStep5 cfgC3 = cfgC3 from by rw [vStep5, if_neg (by norm_num [cfgC3])]]
  rw [show vStep6 cfgC3 = cfgC3 from by rw [vStep6, if_neg (by norm_num [cfgC3])]]
  rw [show vStep7 cfgC3 = cfgC3 from by rw [vStep7, if_neg (by norm_num [cfgC3])]]
  rw [show vStep8 cfgC3 = cfgC3 from by rw [vStep8, if_neg (by norm_num [cfgC3])]]
  rw [show vStep9 cfgC3 = cfgC3 from by rw [vStep9, if_neg (by norm_num [cfgC3])]]
  rw [show vStep10 cfgC3 = cfgC3 from by rw [vStep10, if_neg (by norm_num [cfgC3])]]
  rw [show vStep11 cfgC3 = cfgC3 from by rw [vStep11, if_neg (by norm_num [cfgC3])]]
  rw [show vStep12 cfgC3 = cfgC3 from by rw [vStep12, if_neg (by norm_num [cfgC3])]]
  rw [show vStep13 cfgC3 = cfgC3 from by rw [vStep13, if_neg (by norm_num [cfgC3])]]

lemma genScalesC3 : genScales 1 2 1 = [1, 2] := by
  have hfloor : goInt ((2 - 1 : ℚ) / 1 + 0.5) = 1 := by
    rw [goInt, if_neg (by norm_num)]
    rw [show ((2 - 1 : ℚ) / 1 + 0.5) = 3 / 2 by norm_num]
    rw [Int.floor_eq_iff]
    norm_num
  have hsteps : goSteps 1 2 1 = 2 := by
    rw [goSteps, hfloor]
    rfl
  rw [genScales, hsteps]
  rw [genLoop_succ, if_pos (by norm_num), genLoop_succ, if_pos (by norm_num),
    genLoop_zero]
  norm_num

lemma tmpl1px_gray0 : (buildTemplatePrecomp tmpl1px).gray 0 = 100 := by
  simp [buildTemplatePrecomp, tmpl1px, gray_pixVal]

lemma tmpl1px_varT : (buildTemplatePrecomp tmpl1px).varT = 0 := by
  have h := (buildTemplatePrecomp_consistent tmpl1px).2.2.2
  rw [h, (buildTemplatePrecomp_consistent tmpl1px).1,
    (buildTemplatePrecomp_consistent tmpl1px).2.1,
    show (buildTemplatePrecomp tmpl1px).W * (buildTemplatePrecomp tmpl1px).H = 1 from rfl,
    Finset.sum_range_one, Finset.sum_range_one, tmpl1px_gray0]
  norm_num

lemma tmpl1px_stdT : (buildTemplatePrecomp tmpl1px).stdT ≤ ((1e-9 : ℚ) : ℝ) := by
  rw [TemplatePrecomp.stdT, tmpl1px_varT, if_neg (lt_irrefl 0)]
  positivity

lemma frame1px_gray0 : (buildGrayPrecomp frame1px).gray 0 = 1063 / 50 := by
  simp [buildGrayPrecomp, frame1px, grayOfPix]
  norm_num

lemma matcher1C3 :
    matchTemplateNCCGrayIntegralPre frame1px (buildTemplatePrecomp tmpl1px) optsPlain
        (buildGrayPrecomp frame1px) =
      { X := 0, Y := 0, Score := -1, Found := false } := by
  simp only [matchTemplateNCCGrayIntegralPre]
  rw [if_neg (by decide)]
  rw [if_pos tmpl1px_stdT]
  rw [show scanPts frame1px.W frame1px.H (buildTemplatePrecomp tmpl1px).W
      (buildTemplatePrecomp tmpl1px).H optsPlain.Stride = [(0, 0)] from by decide]
  simp only [constScan]
  rw [show ((0 + (buildTemplatePrecomp tmpl1px).H / 2) * (buildGrayPrecomp frame1px).W +
      (0 + (buildTemplatePrecomp tmpl1px).W / 2)) = 0 from rfl]
  rw [frame1px_gray0, tmpl1px_gray0]
  rw [if_pos (by rw [abs_of_nonpos (by norm_num)]; norm_num)]

lemma matcher2C3 :
    matchTemplateNCCGrayIntegralPre frame1px
        (buildScaledPrecomp (buildTemplatePrecomp tmpl1px) 2 2) optsPlain
        (buildGrayPrecomp frame1px) =
      { X := 0, Y := 0, Score := -1, Found := false } := by
  simp only [matchTemplateNCCGrayIntegralPre]
  rw [if_pos (by decide)]

lemma getScaledC3 (c : TmplCache) (hmiss : c (2, 2) = none) :
    getScaledTemplatePrecompFromBase c (buildTemplatePrecomp tmpl1px) 2 =
      (some (buildScaledPrecomp (buildTemplatePrecomp tmpl1px) 2 2),
        fun k => if k = (2, 2) then
          some (buildScaledPrecomp (buildTemplatePrecomp tmpl1px) 2 2) else c k) := by
  have hint : goInt (((buildTemplatePrecomp tmpl1px).W : ℚ) * 2) = 2 := by
    rw [show ((buildTemplatePrecomp tmpl1px).W : ℚ) = 1 from by
      rw [show (buildTemplatePrecomp tmpl1px).W = 1 from rfl]; norm_num]
    rw [goInt, if_neg (by norm_num), show ((1 : ℚ) * 2) = 2 by norm_num]
    rw [Int.floor_eq_iff]
    norm_num
  have hinth : goInt (((buildTemplatePrecomp tmpl1px).H : ℚ) * 2) = 2 := by
    rw [show ((buildTemplatePrecomp tmpl1px).H : ℚ) = 1 from by
      rw [show (buildTemplatePrecomp tmpl1px).H = 1 from rfl]; norm_num]
    rw [goInt, if_neg (by norm_num), show ((1 : ℚ) * 2) = 2 by norm_num]
    rw [Int.floor_eq_iff]
    norm_num
  rw [getScaledTemplatePrecompFromBase]
  rw [if_neg (by norm_num), if_neg (by norm_num)]
  rw [hint, hinth]
  rw [if_neg (by norm_num)]
  rw [show ((2 : ℤ).toNat, (2 : ℤ).toNat) = ((2 : ℕ), (2 : ℕ)) from rfl, hmiss]
  rfl

lemma msWorkersC3 (c : TmplCache) (hmiss : c (2, 2) = none) :
    msWorkers frame1px (buildTemplatePrecomp tmpl1px) msOptsC3x (buildGrayPrecomp frame1px)
        [1, 2] false c =
      ([⟨0, 0, -1, 1, false, 0⟩, ⟨0, 0, -1, 2, false, 0⟩], false, 2,
        fun k => if k = (2, 2) then
          some (buildScaledPrecomp (buildTemplatePrecomp tmpl1px) 2 2) else c k) := by
  have hg1 : getScaledTemplatePrecompFromBase c (buildTemplatePrecomp tmpl1px) 1 =
      (some (buildTemplatePrecomp tmpl1px), c) := by
    rw [getScaledTemplatePrecompFromBase]
    rw [if_neg (by norm_num), if_pos rfl]
  have hnostop : ¬(0 < msOptsC3x.StopOnScore ∧
      ((msOptsC3x.StopOnScore : ℚ) : ℝ) ≤
        ({ X := 0, Y := 0, Score := -1, Found := false } : NCCResult).Score) := by
    rintro ⟨-, hle⟩
    rw [show ({ X := 0, Y := 0, Score := -1, Found := false } : NCCResult).Score = -1
      from rfl, show msOptsC3x.StopOnScore = 0.9 from rfl] at hle
    push_cast at hle
    norm_num at hle
  simp only [msWorkers]
  rw [if_neg (by norm_num : ¬(1 : ℚ) ≤ 0), if_neg (by norm_num : ¬(2 : ℚ) ≤ 0)]
  rw [hg1]
  simp only [show msOptsC3x.NCC = optsPlain from rfl, matcher1C3]
  rw [if_neg hnostop]
  rw [getScaledC3 c hmiss]
  simp only [matcher2C3]
  rw [if_neg hnostop]
  rfl

lemma msAggregate_stay (stopOn : ℚ) (best : MultiScaleResult) :
    ∀ rs : List MultiScaleResult, (∀ r ∈ rs, ¬best.Score < r.Score) →
      msAggregate stopOn false best rs = best := by
  intro rs
  induction rs with
  | nil => intro _; rfl
  | cons r rest ih =>
      intro h
      simp only [msAggregate]
      rw [if_neg (h r (List.mem_cons_self r rest))]
      rw [if_neg (by simp)]
      exact ih fun s hs => h s (List.mem_cons_of_mem _ hs)

lemma msParallelC3 :
    (MultiScaleMatchParallel (some frame1px) (some tmpl1px) msOptsC3 noCache).1 =
      { X := 0, Y := 0, Score := -1, Scale := 0, Found := false, ScalesEvaluated := 2 } := by
  have hgt : getTemplatePrecomp noCache tmpl1px =
      (some (buildTemplatePrecomp tmpl1px),
        fun k => if k = (1, 1) then some (buildTemplatePrecomp tmpl1px) else noCache k) := by
    rw [getTemplatePrecomp, if_neg (by decide)]
    rfl
  have hstay := msAggregate_stay msOptsC3x.StopOnScore
    { X := 0, Y := 0, Score := -1, Scale := 0, Found := false, ScalesEvaluated := 0 }
    [⟨0, 0, -1, 1, false, 0⟩, ⟨0, 0, -1, 2, false, 0⟩]
    (by
      intro r hr
      rcases List.mem_cons.1 hr with h | h
      · subst h; norm_num
      · rcases List.mem_cons.1 h with h2 | h2
        · subst h2; norm_num
        · cases h2)
  simp only [MultiScaleMatchParallel]
  rw [hgt]
  simp only
  rw [if_pos (show msOptsC3.Scales = [] from rfl)]
  rw [if_pos (by norm_num [msOptsC3] : 0 < msOptsC3.MinScale ∧ 0 < msOptsC3.MaxScale ∧
    0 < msOptsC3.ScaleStep ∧ msOptsC3.MinScale ≤ msOptsC3.MaxScale)]
  rw [show genScales msOptsC3.MinScale msOptsC3.MaxScale msOptsC3.ScaleStep = [1, 2] from by
    rw [show msOptsC3.MinScale = 1 from rfl, show msOptsC3.MaxScale = 2 from rfl,
      show msOptsC3.ScaleStep = 1 from rfl]
    exact genScalesC3]
  rw [show ({ msOptsC3 with Scales := [1, 2] } : MultiScaleOptions) = msOptsC3x from rfl]
  simp only [msRun]
  rw [show msOptsC3x.Scales = [1, 2] from rfl]
  rw [msWorkersC3 _ rfl]
  simp only
  rw [hstay]
  rw [if_pos (by norm_num)]

lemma detectC3 :
    (DetectTemplateDetailed (some frame1px) (some tmpl1px) (some cfgC3) noCache).1 =
      some { X := 0, Y := 0, Score := -1, Scale := 0, Found := false, ScalesEvaluated := 2 } := by
  simp only [DetectTemplateDetailed]
  rw [validateC3]
  exact congrArg some msParallelC3

lemma maskedIdxC3 : maskedIdx tmpl1px = [0] := by decide

lemma varTC_C3 (sel : Pix → ℕ) (hsel : sel (pixVal 100) = 100) :
    varTC tmpl1px sel = 0 := by
  rw [varTC, sumChanT, sumChanT2, maskedIdxC3]
  simp [chanT, tmpl1px, hsel]

lemma rgbC3 :
    matchTemplateNCCRBG frame1px tmpl1px lOptsC3 =
      { X := 0, Y := 0, Score := 1, Found := true } := by
  simp only [matchTemplateNCCRBG]
  rw [if_neg (by rw [maskedIdxC3]; norm_num)]
  rw [if_pos ⟨by rw [varTC_C3 Pix.r rfl]; norm_num, by rw [varTC_C3 Pix.g rfl]; norm_num,
    by rw [varTC_C3 Pix.b rfl]; norm_num⟩]
  rw [show scanPts frame1px.W frame1px.H tmpl1px.W tmpl1px.H lOptsC3.Stride = [(0, 0)]
    from by decide]
  rw [show chanT tmpl1px Pix.r ((maskedIdx tmpl1px).headD 0) = 100 from by
    rw [maskedIdxC3]
    simp [chanT, tmpl1px, pixVal]]
  simp only [rgbConstScan]
  rw [if_neg (by decide : ¬(frame1px.px 0 0).a = 0)]
  rw [if_pos (by
    rw [show ((frame1px.px 0 0).r : ℚ) = 100 from by norm_num [frame1px]]
    norm_num)]

lemma legacyC3 :
    MatchTemplateNCC (some frame1px) (some tmpl1px) lOptsC3 =
      { X := 0, Y := 0, Score := 1, Found := true } := by
  simp only [MatchTemplateNCC]
  rw [if_neg (by decide)]
  rw [if_pos (show ({ lOptsC3 with
      Threshold := if lOptsC3.Threshold ≤ 0 then 0.80 else lOptsC3.Threshold
      Stride := if lOptsC3.Stride = 0 then 1 else lOptsC3.Stride } : NCCOptionsL).UseRGB = true
    from rfl)]
  rw [show ({ lOptsC3 with
      Threshold := if lOptsC3.Threshold ≤ 0 then 0.80 else lOptsC3.Threshold
      Stride := if lOptsC3.Stride = 0 then 1 else lOptsC3.Stride } : NCCOptionsL) = lOptsC3
    from by
      rw [show (if lOptsC3.Threshold ≤ 0 then (0.80 : ℚ) else lOptsC3.Threshold) =
        lOptsC3.Threshold from by rw [if_neg (by norm_num [lOptsC3])]]
      rw [show (if lOptsC3.Stride = 0 then 1 else lOptsC3.Stride) = lOptsC3.Stride from by
        rw [if_neg (by norm_num [lOptsC3])]]]
  exact rgbC3

/-- C3, counterexample.  With `useRGB` enabled in the config, the detection
entry point on a red 1x1 frame against a grey 1x1 template returns the
grayscale verdict (sentinel score -1, not found: luma 21.26 differs from
luma 100), while the legacy per-channel matcher on the same input and
threshold returns score 1, found (the red channels agree) — so the entry
point did not run the per-channel statistics. -/
theorem C3_counterexample :
    cfgC3.UseRGB = true ∧
      (DetectTemplateDetailed (some frame1px) (some tmpl1px) (some cfgC3) noCache).1 =
        some { X := 0, Y := 0, Score := -1, Scale := 0, Found := false, ScalesEvaluated := 2 } ∧
      MatchTemplateNCC (some frame1px) (some tmpl1px) lOptsC3 =
        { X := 0, Y := 0, Score := 1, Found := true } ∧
      lOptsC3.UseRGB = true ∧ lOptsC3.Threshold = cfgC3.Threshold :=
  ⟨rfl, detectC3, legacyC3, rfl, rfl⟩

/-- C3, amended.  The detection entry point ignores `useRGB` entirely: its
result is unchanged by flipping the flag (the validated config forwards no
such option — the domain NCC options have no `UseRGB` field).  The
per-channel averaged statistics exist only in the legacy capture package,
whose `MatchTemplateNCC` dispatches to `matchTemplateNCCRBG` when its own
`UseRGB` option is set (after Threshold/Stride defaulting). -/
theorem C3_amended (frame tmpl : Option Img) (cfg : Config) (c : TmplCache)
    (b1 b2 : Bool) :
    DetectTemplateDetailed frame tmpl (some { cfg with UseRGB := b1 }) c =
      DetectTemplateDetailed frame tmpl (some { cfg with UseRGB := b2 }) c ∧
      ∀ (fr tm : Img) (opts : NCCOptionsL),
        opts.UseRGB = true →
        ¬(tm.W = 0 ∨ tm.H = 0 ∨ fr.W < tm.W ∨ fr.H < tm.H) →
        MatchTemplateNCC (some fr) (some tm) opts =
          matchTemplateNCCRBG fr tm
            { opts with
                Threshold := if opts.Threshold ≤ 0 then 0.80 else opts.Threshold
                Stride := if opts.Stride = 0 then 1 else opts.Stride } := by
  constructor
  · cases frame with
    | none => rfl
    | some fr =>
        cases tmpl with
        | none => rfl
        | some tm =>
            simp only [DetectTemplateDetailed]
            rw [validate_update_useRGB cfg b1, validate_update_useRGB cfg b2]
  · intro fr tm opts hrgb hguard
    simp only [MatchTemplateNCC]
    rw [if_neg hguard]
    rw [if_pos (show ({ opts with
        Threshold := if opts.Threshold ≤ 0 then 0.80 else opts.Threshold
        Stride := if opts.Stride = 0 then 1 else opts.Stride } : NCCOptionsL).UseRGB = true
      from hrgb)]

/-- C3, witness: the amended theorem at the concrete red-frame example —
flipping `useRGB` in the config leaves the entry point's answer unchanged,
and the legacy matcher with `UseRGB` set dispatches to the RGB path. -/
theorem C3_witness :
    DetectTemplateDetailed (some frame1px) (some tmpl1px)
        (some { cfgC3 with UseRGB := true }) noCache =
      DetectTemplateDetailed (some frame1px) (some tmpl1px)
        (some { cfgC3 with UseRGB := false }) noCache ∧
      MatchTemplateNCC (some frame1px) (some tmpl1px) lOptsC3 =
        matchTemplateNCCRBG frame1px tmpl1px
          { lOptsC3 with
              Threshold := if lOptsC3.Threshold ≤ 0 then 0.80 else lOptsC3.Threshold
              Stride := if lOptsC3.Stride = 0 then 1 else lOptsC3.Stride } :=
  ⟨(C3_amended (some frame1px) (some tmpl1px) cfgC3 noCache true false).1,
    (C3_amended (some frame1px) (some tmpl1px) cfgC3 noCache true false).2 frame1px tmpl1px
      lOptsC3 rfl (by decide)⟩

/-- C9, witness: the amended theorem applied to a concrete halted machine. -/
theorem C9_witness :
    (stepEvent fsmHalt (Event.targetAcquiredAt 5 7) 0).1.coordSet = true ∧
      TargetCoordinates (stepEvent fsmHalt Event.halt 0).1 = (0, 0, false) ∧
      (stepEvent fsmHalt Event.cancel 0).1.coordSet = fsmHalt.coordSet :=
  ⟨((C9_amended fsmHalt 0).1 5 7).2.2,
    (C9_amended fsmHalt 0).2.2.1,
    ((C9_amended fsmHalt 0).2.2.2 Event.cancel (fun _ _ h => Event.noConfusion h)
      (fun h => Event.noConfusion h)).2.2⟩

end PixelBot
